import Mathlib

/-!
# utrack: receive thread and announce worker

A shallow embedding of `src/receive_thread.cpp` and `src/announce_thread.cpp`.

Conventions of the embedding.

* A C++ integer field is a `Nat` or `Int` holding the value the program sees
  (host order).  Arithmetic on the 32-bit atomic counters is reduced modulo
  `2^32` explicitly (`wrap32`).
* The host is little-endian (x86), so `ntohl`, `htonl` and `be64toh` reverse the
  bytes of their argument.
* Conversions between `size_t` and `int` are those of an LP64 platform
  (`int_of_size_t`, `size_t_of_int`); a theorem that needs the size of a
  container to fit an `int` says so in a hypothesis.
* The datagram buffer is seen through the struct the code casts it to
  (`udp_announce_message`); `size` is the length the socket reported.
* Everything the two files use but do not define (the siphash primitive, the
  swarm, the packet buffer, the configuration constants) is a parameter or is
  modelled from the specification, and says so in its doc comment.
-/

namespace Utrack

/-! ## Machine integers and byte order -/

/-- Value held by a `uint32_t` after it is assigned the integer `x`. -/
def wrap32 (x : Int) : Nat := (x % 4294967296).toNat

/-- Little-endian object representation of `x` in `w` bytes. -/
def bytes_le : Nat → Nat → List Nat
  | 0, _ => []
  | w + 1, x => (x % 256) :: bytes_le w (x / 256)

/-- Number whose big-endian representation is `bs`. -/
def of_bytes_be (bs : List Nat) : Nat := bs.foldl (fun acc b => acc * 256 + b) 0

/-- Byte reversal of a `w`-byte integer. -/
def bswap (w x : Nat) : Nat := of_bytes_be (bytes_le w x)

/-- The `ntohl` of a little-endian host. -/
def ntohl (x : Nat) : Nat := bswap 4 x

/-- The `htonl` of a little-endian host. -/
def htonl (x : Nat) : Nat := bswap 4 x

/-- The `be64toh` of a little-endian host. -/
def be64toh (x : Nat) : Nat := bswap 8 x

/-- Conversion of a `size_t` value to `int` (two's complement, low 32 bits). -/
def int_of_size_t (x : Nat) : Int :=
  if x % 4294967296 < 2147483648 then ((x % 4294967296 : Nat) : Int)
  else ((x % 4294967296 : Nat) : Int) - 4294967296

/-- Conversion of an `int` to the 64-bit `size_t` a vector subscript takes. -/
def size_t_of_int (i : Int) : Nat := (i % 18446744073709551616).toNat

/-! ## Messages -/

/-- Modelled from the spec: the action codes of `messages.hpp` (§6). -/
def action_connect : Nat := 0

/-- Modelled from the spec: the action codes of `messages.hpp` (§6). -/
def action_announce : Nat := 1

/-- Modelled from the spec: the action codes of `messages.hpp` (§6). -/
def action_scrape : Nat := 2

/-- Modelled from the spec: the 20-byte info-hash of `messages.hpp`, as the
array `val` of its elements. -/
structure sha1_hash where
  val : List Nat
deriving DecidableEq

/-- The fields of `sockaddr_in` the code reads, as raw (network order) values. -/
structure sockaddr_in where
  sin_family : Nat
  sin_port : Nat
  sin_addr : Nat
deriving DecidableEq

/-- Modelled from the spec: the announce request of `messages.hpp`, with the
fields of the wire format of §6 in their order. -/
structure udp_announce_message where
  connection_id : Nat
  action : Nat
  transaction_id : Nat
  hash : sha1_hash
  peer_id : sha1_hash
  downloaded : Int
  left : Int
  uploaded : Int
  event : Int
  ip : Nat
  key : Nat
  num_want : Int
  port : Nat
  extensions : Nat
deriving DecidableEq

/-- Modelled from the spec: the scrape request of `messages.hpp` (§6).  The
array `hash` has the one element the code reads, `hash[0]`. -/
structure udp_scrape_message where
  connection_id : Nat
  action : Nat
  transaction_id : Nat
  hash : sha1_hash
deriving DecidableEq

/-- Modelled from the spec: the cast `(udp_scrape_message*)buf` of a buffer
already seen as `udp_announce_message`.  Both layouts of §6 start with
`connection_id | action | transaction_id | info_hash`. -/
def scrape_view (hdr : udp_announce_message) : udp_scrape_message :=
  { connection_id := hdr.connection_id
    action := hdr.action
    transaction_id := hdr.transaction_id
    hash := hdr.hash }

/-- Modelled from the spec: the connect response of `messages.hpp` (§6). -/
structure udp_connect_response where
  action : Nat
  transaction_id : Nat
  connection_id : Nat
deriving DecidableEq

/-- Modelled from the spec: the announce response header of `messages.hpp`. -/
structure udp_announce_response where
  action : Nat
  transaction_id : Nat
  interval : Nat
  downloaders : Nat
  seeds : Nat
deriving DecidableEq

/-- Modelled from the spec: the stats triple of a scrape response. -/
structure udp_scrape_data where
  seeds : Nat
  download_count : Nat
  downloaders : Nat
deriving DecidableEq

/-- Modelled from the spec: the scrape response of `messages.hpp` (§6).  The
array `data` has the one element the code uses, `data[0]`. -/
structure udp_scrape_response where
  action : Nat
  transaction_id : Nat
  data : udp_scrape_data
deriving DecidableEq

/-- The union `bits` of an `announce_msg`.  Its storage is seen through the
larger member `announce`; the member `scrape` is the view of its leading
fields (`msg_bits.scrape`). -/
structure msg_bits where
  announce : udp_announce_message
deriving DecidableEq

/-- The member `scrape` of the union `bits`. -/
def msg_bits.scrape (b : msg_bits) : udp_scrape_message := scrape_view b.announce

/-- The assignment `m.bits.scrape = *req`: the leading fields of the union
are overwritten, the storage behind them is left as it was. -/
def msg_bits.set_scrape (b : msg_bits) (req : udp_scrape_message) : msg_bits :=
  { announce := { b.announce with
      connection_id := req.connection_id
      action := req.action
      transaction_id := req.transaction_id
      hash := req.hash } }

/-- The message the receive thread hands to a worker. -/
structure announce_msg where
  bits : msg_bits
  from_ : sockaddr_in
  fromlen : Nat
deriving DecidableEq

/-! ## Packet buffer -/

/-- The object an `iovec` points at. -/
inductive iov_object where
  | connect (r : udp_connect_response)
  | announce (r : udp_announce_response)
  | scrape (r : udp_scrape_response)
  | peers (buf : List Nat)
deriving DecidableEq

/-- One slice of a gather vector. -/
structure iovec where
  iov_base : iov_object
  iov_len : Nat
deriving DecidableEq

/-- One datagram given to `packet_buffer::append`: the slices, the destination
and the address length when the caller passes one. -/
structure out_packet where
  iov : List iovec
  to_ : sockaddr_in
  tolen : Option Nat
deriving DecidableEq

/-- Modelled from the spec: `packet_buffer` (§4.3), the accumulator of
outbound datagrams; the datagrams are kept in the order they were appended. -/
abbrev packet_buffer := List out_packet

/-- Modelled from the spec: `packet_buffer::append` (§4.3) adds one datagram
at the end of the accumulator. -/
def packet_buffer.append (b : packet_buffer) (p : out_packet) : packet_buffer :=
  b ++ [p]

/-! ## Connection ids -/

/-- Modelled from the spec: the key pair of `key_rotate.hpp` (§4.1). -/
structure key_rotate where
  cur_key : List Nat
  prev_key : List Nat
deriving DecidableEq

/-- Modelled from the spec: one rotation of the key pair (§4.1),
`previous ← current; current ← fresh`. -/
def key_rotate.rotate (k : key_rotate) (fresh : List Nat) : key_rotate :=
  { cur_key := fresh, prev_key := k.cur_key }

/-- The function `gen_secret_digest`.  `siphash input key` is the 64-bit
value the external primitive writes to its output. -/
def gen_secret_digest (siphash : List Nat → List Nat → Nat)
    (from_ : sockaddr_in) (key : List Nat) : Nat :=
  let ep := bytes_le 4 from_.sin_addr ++ bytes_le 2 from_.sin_port
  siphash ep key

/-- The function `generate_connection_id`. -/
def generate_connection_id (siphash : List Nat → List Nat → Nat)
    (keys : key_rotate) (from_ : sockaddr_in) : Nat :=
  gen_secret_digest siphash from_ keys.cur_key

/-- The function `verify_connection_id`. -/
def verify_connection_id (siphash : List Nat → List Nat → Nat)
    (keys : key_rotate) (conn_id : Nat) (from_ : sockaddr_in) : Bool :=
  conn_id == gen_secret_digest siphash from_ keys.cur_key
    || conn_id == gen_secret_digest siphash from_ keys.prev_key

/-! ## SipHash-2-4

The primitive behind the external `siphash`.  The theorems below take the
primitive as a parameter; this definition serves to evaluate the code at
concrete datagrams. -/

/-- Number whose little-endian representation is `bs`. -/
def of_bytes_le : List Nat → Nat
  | [] => 0
  | b :: bs => b + 256 * of_bytes_le bs

/-- Rotation of a 64-bit word to the left by `b` bits. -/
def rotl64 (x b : Nat) : Nat :=
  ((x <<< b) ||| (x >>> (64 - b))) % 18446744073709551616

/-- The four words of the SipHash state. -/
structure sip_state where
  v0 : Nat
  v1 : Nat
  v2 : Nat
  v3 : Nat
deriving DecidableEq

/-- One SipRound. -/
def sipround (s : sip_state) : sip_state :=
  let v0 := (s.v0 + s.v1) % 18446744073709551616
  let v1 := rotl64 s.v1 13 ^^^ v0
  let v0 := rotl64 v0 32
  let v2 := (s.v2 + s.v3) % 18446744073709551616
  let v3 := rotl64 s.v3 16 ^^^ v2
  let v0 := (v0 + v3) % 18446744073709551616
  let v3 := rotl64 v3 21 ^^^ v0
  let v2 := (v2 + v1) % 18446744073709551616
  let v1 := rotl64 v1 17 ^^^ v2
  let v2 := rotl64 v2 32
  { v0 := v0, v1 := v1, v2 := v2, v3 := v3 }

/-- The compression of one 64-bit word `m` (two rounds). -/
def sip_compress (s : sip_state) (m : Nat) : sip_state :=
  let s1 := sipround (sipround { s with v3 := s.v3 ^^^ m })
  { s1 with v0 := s1.v0 ^^^ m }

/-- The compression of the first `n` 8-byte blocks of `data`. -/
def sip_blocks : Nat → List Nat → sip_state → sip_state
  | 0, _, s => s
  | n + 1, data, s =>
    sip_blocks n (data.drop 8) (sip_compress s (of_bytes_le (data.take 8)))

/-- Modelled from the spec: the siphash primitive of §1 (16-byte key,
variable-length input, 64-bit output), as SipHash-2-4. -/
def siphash24 (data key : List Nat) : Nat :=
  let k0 := of_bytes_le (key.take 8)
  let k1 := of_bytes_le ((key.drop 8).take 8)
  let s0 : sip_state :=
    { v0 := k0 ^^^ 0x736f6d6570736575
      v1 := k1 ^^^ 0x646f72616e646f6d
      v2 := k0 ^^^ 0x6c7967656e657261
      v3 := k1 ^^^ 0x7465646279746573 }
  let n := data.length
  let s1 := sip_blocks (n / 8) data s0
  let b := (n % 256) * 72057594037927936 + of_bytes_le (data.drop (n / 8 * 8))
  let s2 := sip_compress s1 b
  let s3 := sipround (sipround (sipround (sipround { s2 with v2 := s2.v2 ^^^ 0xff })))
  s3.v0 ^^^ s3.v1 ^^^ s3.v2 ^^^ s3.v3

/-! ## Receive thread -/

/-- What `receive_thread::incoming_packet` reads but does not change: the
siphash primitive, the hash functor `siphash_fun` of the swarm map, the key
pair, the configuration flag, the number of announce threads, and the
contents of the local `announce_msg m` before it is assigned (the declaration
has no initialiser). -/
structure recv_env where
  siphash : List Nat → List Nat → Nat
  siphash_fun : sha1_hash → Nat
  keys : key_rotate
  allow_alternate_ip : Bool
  num_threads : Nat
  uninit_msg : announce_msg

/-- What `incoming_packet` changes: the three global counters, the send
buffer, and the calls `m_announce_threads[i]->post_announce(m)` it made, in
order, each with the index `i`. -/
structure recv_state where
  connects : Nat
  errors : Nat
  bytes_in : Nat
  send_buffer : packet_buffer
  posted : List (Nat × announce_msg)
deriving DecidableEq

/-- The method `receive_thread::incoming_packet`.  `hdr` is the buffer seen as
`udp_announce_message` and `size` the datagram length.  The worker list is
taken to be non-empty (the remainder by zero is undefined in C++). -/
def incoming_packet (env : recv_env) (st : recv_state)
    (hdr : udp_announce_message) (size : Int)
    (from_ : sockaddr_in) (fromlen : Nat) : recv_state :=
  let st := { st with bytes_in := wrap32 (st.bytes_in + size) }
  if size < 16 then st
  else if ntohl hdr.action = action_connect then
    if be64toh hdr.connection_id ≠ 0x41727101980 then
      { st with errors := wrap32 (st.errors + 1) }
    else
      let resp : udp_connect_response :=
        { action := htonl action_connect
          connection_id := generate_connection_id env.siphash env.keys from_
          transaction_id := hdr.transaction_id }
      let st := { st with connects := wrap32 (st.connects + 1) }
      let iov : iovec := { iov_base := iov_object.connect resp, iov_len := 16 }
      { st with send_buffer :=
          st.send_buffer.append { iov := [iov], to_ := from_, tolen := some fromlen } }
  else if ntohl hdr.action = action_announce then
    if !verify_connection_id env.siphash env.keys hdr.connection_id from_ then
      { st with errors := wrap32 (st.errors + 1) }
    else if size < 98 then
      { st with errors := wrap32 (st.errors + 1) }
    else
      let hdr :=
        if !env.allow_alternate_ip || hdr.ip == 0 then
          { hdr with ip := from_.sin_addr }
        else hdr
      let m : announce_msg :=
        { bits := { announce := hdr }, from_ := from_, fromlen := fromlen }
      let thread_selector : Int :=
        int_of_size_t (env.siphash_fun hdr.hash % env.num_threads)
      { st with posted := st.posted ++ [(size_t_of_int thread_selector, m)] }
  else if ntohl hdr.action = action_scrape then
    if !verify_connection_id env.siphash env.keys hdr.connection_id from_ then
      { st with errors := wrap32 (st.errors + 1) }
    else if size < 16 + 20 then
      { st with errors := wrap32 (st.errors + 1) }
    else
      let req := scrape_view hdr
      let m : announce_msg :=
        { bits := env.uninit_msg.bits.set_scrape req, from_ := from_, fromlen := fromlen }
      let thread_selector : Int :=
        int_of_size_t (req.hash.val.headD 0 % env.num_threads)
      { st with posted := st.posted ++ [(size_t_of_int thread_selector, m)] }
  else
    { st with errors := wrap32 (st.errors + 1) }

/-! ## Announce worker -/

/-- What `swarm::announce` gives back: the swarm after the call, the peer list
`buf` with its length `len`, the two counts and the generator after the call. -/
structure announce_result (swarm rng : Type) where
  swarm : swarm
  buf : List Nat
  len : Int
  downloaders : Nat
  seeds : Nat
  mt_engine : rng

/-- What `announce_thread` uses and the two files do not define: the queue
bound of `config.hpp`, the swarm of `swarm.hpp` (its default constructor and
its three operations), the distribution `rand(0, 240)` with the range the
library guarantees, and the contents of a `udp_scrape_response` declared
without an initialiser. -/
structure worker_env (swarm rng : Type) where
  announce_queue_size : Nat
  new_swarm : swarm
  announce : Nat → udp_announce_message → swarm → rng → announce_result swarm rng
  scrape : swarm → udp_scrape_data
  purge_stale : Nat → swarm → swarm
  rand : rng → Nat × rng
  rand_le : ∀ g, (rand g).1 ≤ 240
  uninit_scrape_response : udp_scrape_response

/-- The state of one `announce_thread`: its members, the locals of
`thread_fun`, the global counters it updates, the number of calls of
`m_cond.notify_one()` made by `post_announces`, and the datagrams given to
`m_sock.send`.  The swarm map is the list of its entries in iteration order;
an iterator is an index into it, `end()` being the length.  `m_queue_size`,
declared in `announce_thread.hpp`, is a number without a bound. -/
structure announce_thread (swarm rng : Type) where
  m_swarms : List (sha1_hash × swarm)
  m_queue : List (List announce_msg)
  m_queue_size : Nat
  m_quit : Bool
  queue : List (List announce_msg)
  now : Nat
  next_prune : Nat
  next_to_purge : Nat
  mt_engine : rng
  send_buffer : packet_buffer
  announces : Nat
  scrapes : Nat
  dropped_announces : Nat
  notified : Nat
  sent : List out_packet

/-- The duration `seconds(n)` in ticks of the steady clock (nanoseconds). -/
def seconds (n : Nat) : Nat := n * 1000000000

/-- The method `announce_thread::post_announces`. -/
def post_announces {swarm rng : Type} (env : worker_env swarm rng)
    (w : announce_thread swarm rng) (m : List announce_msg) : announce_thread swarm rng :=
  if m.isEmpty then w
  else if w.m_queue_size ≥ env.announce_queue_size then
    { w with dropped_announces := wrap32 (w.dropped_announces + m.length) }
  else
    let w1 := { w with m_queue_size := w.m_queue_size + m.length }
    let first_insert := w1.m_queue.isEmpty
    let w2 := { w1 with m_queue := w1.m_queue ++ [m] }
    if first_insert then { w2 with notified := w2.notified + 1 } else w2

/-- The lookup `m_swarms.find(h)`. -/
def swarm_find {swarm : Type} (t : List (sha1_hash × swarm)) (h : sha1_hash) :
    Option swarm :=
  (t.find? (fun e => e.1 == h)).map (fun e => e.2)

/-- The table after `m_swarms[h]`: an entry with a default swarm is added when
`h` has none. -/
def swarm_touch {swarm : Type} (new_swarm : swarm) (t : List (sha1_hash × swarm))
    (h : sha1_hash) : List (sha1_hash × swarm) :=
  if (swarm_find t h).isSome then t else t ++ [(h, new_swarm)]

/-- The table after the swarm of `h` is replaced by `s`. -/
def swarm_store {swarm : Type} (t : List (sha1_hash × swarm)) (h : sha1_hash)
    (s : swarm) : List (sha1_hash × swarm) :=
  t.map (fun e => if e.1 == h then (e.1, s) else e)

/-- The body of the inner loop of `thread_fun`: one message is answered. -/
def handle_msg {swarm rng : Type} (env : worker_env swarm rng)
    (w : announce_thread swarm rng) (m : announce_msg) : announce_thread swarm rng :=
  if ntohl m.bits.announce.action = action_announce then
    let t := swarm_touch env.new_swarm w.m_swarms m.bits.announce.hash
    let s := (swarm_find t m.bits.announce.hash).getD env.new_swarm
    let r := env.rand w.mt_engine
    let a := env.announce w.now m.bits.announce s r.2
    let resp : udp_announce_response :=
      { action := htonl action_announce
        transaction_id := m.bits.announce.transaction_id
        interval := htonl (1680 + r.1)
        downloaders := htonl a.downloaders
        seeds := htonl a.seeds }
    let iov : List iovec :=
      [ { iov_base := iov_object.announce resp, iov_len := 20 },
        { iov_base := iov_object.peers a.buf, iov_len := size_t_of_int a.len } ]
    { w with
      m_swarms := swarm_store t m.bits.announce.hash a.swarm
      mt_engine := a.mt_engine
      announces := wrap32 (w.announces + 1)
      send_buffer := w.send_buffer.append { iov := iov, to_ := m.from_, tolen := none } }
  else if ntohl m.bits.announce.action = action_scrape then
    let resp0 : udp_scrape_response :=
      { env.uninit_scrape_response with
        action := htonl action_scrape
        transaction_id := m.bits.scrape.transaction_id }
    let resp : udp_scrape_response :=
      match swarm_find w.m_swarms m.bits.scrape.hash with
      | some s =>
        let d := env.scrape s
        { resp0 with data :=
            { seeds := htonl d.seeds
              download_count := htonl d.download_count
              downloaders := htonl d.downloaders } }
      | none => resp0
    let iov : iovec := { iov_base := iov_object.scrape resp, iov_len := 8 + 12 }
    { w with
      scrapes := wrap32 (w.scrapes + 1)
      send_buffer := w.send_buffer.append { iov := [iov], to_ := m.from_, tolen := none } }
  else w

/-- The two nested loops of `thread_fun` over the batches and their messages. -/
def handle_queue {swarm rng : Type} (env : worker_env swarm rng)
    (w : announce_thread swarm rng) (queue : List (List announce_msg)) : announce_thread swarm rng :=
  queue.foldl (fun w v => v.foldl (handle_msg env) w) w

/-- The table after `purge_stale(now)` is called on the swarm at position `i`. -/
def purge_at {swarm rng : Type} (env : worker_env swarm rng) (now : Nat)
    (t : List (sha1_hash × swarm)) (i : Nat) : List (sha1_hash × swarm) :=
  t.modify (fun e => (e.1, env.purge_stale now e.2)) i

/-- The loop `for (int i = 0; i < num_to_purge; ++i)` of the prune pass, with
`n` iterations left. -/
def purge_loop {swarm rng : Type} (env : worker_env swarm rng) :
    Nat → announce_thread swarm rng → announce_thread swarm rng
  | 0, w => w
  | n + 1, w =>
    let t := purge_at env w.now w.m_swarms w.next_to_purge
    let next := w.next_to_purge + 1
    let next := if next = t.length then 0 else next
    purge_loop env n { w with m_swarms := t, next_to_purge := next }

/-- The prune pass of `thread_fun` (the block under `if (now > next_prune)`).
The size of the table is converted to `int` as the code does. -/
def prune {swarm rng : Type} (env : worker_env swarm rng)
    (w : announce_thread swarm rng) : announce_thread swarm rng :=
  if w.now > w.next_prune then
    let w1 := { w with next_prune := w.now + seconds 10 }
    let w2 :=
      if w1.next_to_purge = w1.m_swarms.length ∧ w1.m_swarms.length > 0 then
        { w1 with next_to_purge := 0 }
      else w1
    if w2.m_swarms.length > 0 then
      let num_to_purge : Int := min (int_of_size_t w2.m_swarms.length) 20
      purge_loop env num_to_purge.toNat w2
    else w2
  else w

/-- The part of an iteration of `thread_fun` that runs under the mutex once
the wait is over and the quit flag is clear: the queue is swapped with the
local one and its size is reset. -/
def take_queue {swarm rng : Type} (w : announce_thread swarm rng) : announce_thread swarm rng :=
  { w with m_queue := w.queue, queue := w.m_queue, m_queue_size := 0 }

/-- The part of an iteration of `thread_fun` that runs after the mutex is
released: the clock is read (`t`), the prune pass runs when it is due, the
local queue is answered and cleared, and the send buffer is flushed.
Modelled from the spec: `m_sock.send(send_buffer)` hands the accumulated
datagrams to the transport and empties the buffer (§4.3). -/
def work {swarm rng : Type} (env : worker_env swarm rng)
    (w : announce_thread swarm rng) (t : Nat) : announce_thread swarm rng :=
  let w1 := prune env { w with now := t }
  let w2 := handle_queue env w1 w1.queue
  { w2 with queue := [], sent := w2.sent ++ w2.send_buffer, send_buffer := [] }

/-- One iteration of the loop of `thread_fun` after the wait: `none` when the
thread leaves the loop (`if (m_quit) break`). -/
def iteration {swarm rng : Type} (env : worker_env swarm rng)
    (w : announce_thread swarm rng) (t : Nat) : Option (announce_thread swarm rng) :=
  if w.m_quit then none else some (work env (take_queue w) t)

/-- The state of a worker when `thread_fun` reaches its loop: what the
constructor and the declarations before the loop set up.  `t` is the first
reading of the clock. -/
def announce_thread.init {swarm rng : Type} (g : rng) (t : Nat)
    (announces scrapes dropped_announces : Nat) : announce_thread swarm rng :=
  { m_swarms := []
    m_queue := []
    m_queue_size := 0
    m_quit := false
    queue := []
    now := t
    next_prune := t + seconds 10
    next_to_purge := 0
    mt_engine := g
    send_buffer := []
    announces := announces
    scrapes := scrapes
    dropped_announces := dropped_announces
    notified := 0
    sent := [] }

/-- The steps of a worker and of the threads that call it: a call of
`post_announces` by the receive thread, the swap under the mutex by the
worker (with the quit flag clear; the local queue is empty there, it was
declared empty and `queue.clear()` ends every iteration), the rest of the
iteration, and the destructor setting the quit flag.  A post may fall between
the swap and the rest of the iteration, as the mutex is released in between. -/
inductive worker_step {swarm rng : Type} (env : worker_env swarm rng) :
    announce_thread swarm rng → announce_thread swarm rng → Prop where
  | post (w : announce_thread swarm rng) (m : List announce_msg) :
      worker_step env w (post_announces env w m)
  | take (w : announce_thread swarm rng) (h : w.m_quit = false) (hq : w.queue = []) :
      worker_step env w (take_queue w)
  | work (w : announce_thread swarm rng) (t : Nat) :
      worker_step env w (work env w t)
  | quit (w : announce_thread swarm rng) :
      worker_step env w { w with m_quit := true }

/-- The states a worker reaches from `w0` by posts and drains. -/
inductive reachable {swarm rng : Type} (env : worker_env swarm rng)
    (w0 : announce_thread swarm rng) : announce_thread swarm rng → Prop where
  | start : reachable env w0 w0
  | step (w w1 : announce_thread swarm rng) : reachable env w0 w → worker_step env w w1 →
      reachable env w0 w1

/-- The number of messages a queue holds, over all its batches. -/
def total_messages (q : List (List announce_msg)) : Nat :=
  (q.map List.length).sum

/-- The call `s.announce(now, &m.bits.announce, …, mt_engine)` made for the
message `m`: `s` is the swarm of the info-hash, a default one when the table
had none, and the generator has already given the interval jitter. -/
def announce_call {swarm rng : Type} (env : worker_env swarm rng)
    (w : announce_thread swarm rng) (m : announce_msg) : announce_result swarm rng :=
  env.announce w.now m.bits.announce
    ((swarm_find w.m_swarms m.bits.announce.hash).getD env.new_swarm)
    (env.rand w.mt_engine).2

/-- The condition of the wait loop of `thread_fun`, with `t` the reading of
the clock it takes: the thread waits on `m_cond` while this holds. -/
def must_wait {swarm rng : Type} (w : announce_thread swarm rng) (t : Nat) : Bool :=
  w.m_queue.isEmpty && !w.m_quit && decide (t < w.next_prune)

/-- The loop of `thread_fun` run over the clock readings `ts`, one for each
iteration whose wait is over: the state when the thread leaves the loop, or
when the readings are used up. -/
def thread_fun_loop {swarm rng : Type} (env : worker_env swarm rng) :
    List Nat → announce_thread swarm rng → announce_thread swarm rng
  | [], w => w
  | t :: ts, w =>
    match iteration env w t with
    | none => w
    | some w1 => thread_fun_loop env ts w1

/-- The positions of a table of `n` swarms visited by `k` steps of a cursor
that starts at `c` and goes back to the first swarm after the last one. -/
def purge_indices (n c k : Nat) : List Nat :=
  (List.range k).map (fun j => (c + j) % n)

/-- The position a prune pass starts at: the cursor, or the first swarm when
the cursor is `end()`. -/
def purge_start {swarm rng : Type} (w : announce_thread swarm rng) : Nat :=
  if w.next_to_purge = w.m_swarms.length then 0 else w.next_to_purge

/-- The positions of the `min(20, n)` swarms that follow the cursor in a table
of `n` swarms, in table order and going round at the end. -/
def purged_positions {swarm rng : Type} (w : announce_thread swarm rng) : List Nat :=
  purge_indices w.m_swarms.length (purge_start w) (min 20 w.m_swarms.length)

/-- The batches of `bs`, posted in this order to a queue that counts `size`
messages, which are accepted: a batch is accepted when it is not empty and
fewer than `bound` messages are counted at its turn. -/
def accepted_batches (bound : Nat) : Nat → List (List announce_msg) → List (List announce_msg)
  | _, [] => []
  | size, b :: bs =>
    if b = [] ∨ size ≥ bound then accepted_batches bound size bs
    else b :: accepted_batches bound (size + b.length) bs

/-- What identifies a response on the wire: its destination and, from its
header, the action and the transaction id. -/
def out_packet.tag (p : out_packet) : sockaddr_in × Option (Nat × Nat) :=
  (p.to_,
    match p.iov with
    | { iov_base := iov_object.connect r, iov_len := _ } :: _ =>
      some (r.action, r.transaction_id)
    | { iov_base := iov_object.announce r, iov_len := _ } :: _ =>
      some (r.action, r.transaction_id)
    | { iov_base := iov_object.scrape r, iov_len := _ } :: _ =>
      some (r.action, r.transaction_id)
    | _ => none)

/-- What identifies the response owed to a message: its sender, its action
(in network order) and its transaction id. -/
def announce_msg.tag (m : announce_msg) : sockaddr_in × Option (Nat × Nat) :=
  (m.from_, some (htonl (ntohl m.bits.announce.action), m.bits.announce.transaction_id))

/-! ## Receive loop -/

/-- The fields of `incoming_packet_t` the receive loop reads; `buffer` is the
receive buffer seen as `udp_announce_message`. -/
structure incoming_packet_t where
  buffer : udp_announce_message
  buflen : Int
  from_ : sockaddr_in
  fromlen : Nat
deriving DecidableEq

/-- The loop `for (int i = 0; i < recvd; ++i)` of `receive_thread::thread_fun`
over the `recvd > 0` datagrams of one `receive` call. -/
def receive_batch (env : recv_env) (st : recv_state) (pkts : List incoming_packet_t) :
    recv_state :=
  match pkts with
  | [] => st
  | p0 :: _ =>
    pkts.foldl (fun st p => incoming_packet env st p.buffer p.buflen p.from_ p0.fromlen) st

/-- A receive environment for the examples: a siphash that adds up its input
and key bytes, two workers. -/
def env0 : recv_env :=
  { siphash := fun input key => input.sum + key.sum
    siphash_fun := fun h => h.val.sum + 1
    keys := { cur_key := [1, 2, 3], prev_key := [4, 5, 6] }
    allow_alternate_ip := true
    num_threads := 2
    uninit_msg :=
      { bits := { announce := ⟨9, 9, 9, ⟨[9]⟩, ⟨[9]⟩, 9, 9, 9, 9, 9, 9, 9, 9, 9⟩ }
        from_ := ⟨9, 9, 9⟩
        fromlen := 9 } }

/-- A receive environment for the examples with SipHash-2-4 as the primitive:
the swarm-map functor hashes the 20 bytes of the info-hash under the key
`00 01 … 0f`; two workers. -/
def env1 : recv_env :=
  { siphash := siphash24
    siphash_fun := fun h => siphash24 (h.val.flatMap (bytes_le 4)) (List.range 16)
    keys := { cur_key := List.replicate 16 17, prev_key := List.replicate 16 34 }
    allow_alternate_ip := false
    num_threads := 2
    uninit_msg :=
      { bits := { announce := ⟨9, 9, 9, ⟨[9]⟩, ⟨[9]⟩, 9, 9, 9, 9, 9, 9, 9, 9, 9⟩ }
        from_ := ⟨9, 9, 9⟩
        fromlen := 9 } }

/-- A receive state for the examples. -/
def st0 : recv_state :=
  { connects := 5, errors := 7, bytes_in := 1000, send_buffer := [], posted := [] }

/-- A sender for the examples: 10.0.0.1:6881, both in network order. -/
def from0 : sockaddr_in := { sin_family := 2, sin_port := 57626, sin_addr := 16777226 }

/-- A datagram header for the examples, with connection id `c`, action field
`a` and declared ip `ip` (raw values). -/
def hdr0 (c a ip : Nat) : udp_announce_message :=
  { connection_id := c
    action := a
    transaction_id := 4022250974
    hash := ⟨[16843009, 16843009, 16843009, 16843009, 16843009]⟩
    peer_id := ⟨[2863311530, 2863311530, 2863311530, 2863311530, 2863311530]⟩
    downloaded := 0
    left := 0
    uploaded := 0
    event := 33554432
    ip := ip
    key := 0
    num_want := 838860800
    port := 57626
    extensions := 0 }

/-- A worker environment for the examples: a swarm is the number of announces
it has seen, the queue bound is 2, and an uninitialised scrape response holds
non-zero values. -/
def wenv0 : worker_env Nat Nat :=
  { announce_queue_size := 2
    new_swarm := 0
    announce := fun _ _ s g =>
      { swarm := s + 1, buf := [], len := 0, downloaders := 0, seeds := s + 1,
        mt_engine := g + 1 }
    scrape := fun s => { seeds := s, download_count := 0, downloaders := 0 }
    purge_stale := fun _ s => s
    rand := fun g => (g % 241, g + 1)
    rand_le := fun g => Nat.le_of_lt_succ (Nat.mod_lt g (by decide))
    uninit_scrape_response :=
      { action := 7, transaction_id := 7,
        data := { seeds := 57005, download_count := 48879, downloaders := 61453 } } }

/-- A freshly constructed worker for the examples. -/
def w_init : announce_thread Nat Nat := announce_thread.init 0 0 0 0 0

/-- An announce message for the examples. -/
def m_announce : announce_msg :=
  { bits := { announce := hdr0 268 16777216 0 }, from_ := from0, fromlen := 16 }

/-- A scrape message for the examples. -/
def m_scrape : announce_msg :=
  { bits := { announce := hdr0 268 33554432 0 }, from_ := from0, fromlen := 16 }

/-- A worker environment for the examples in which `purge_stale` leaves a
mark: it adds 100 to the swarm. -/
def wenv1 : worker_env Nat Nat :=
  { wenv0 with purge_stale := fun _ s => s + 100 }

/-- A worker for the examples with `n` swarms `0, 1, …`, the cursor at `c` and
the next prune due at tick 5. -/
def w_swarms (n c : Nat) : announce_thread Nat Nat :=
  { w_init with
    m_swarms := (List.range n).map (fun i => (⟨[i]⟩, i))
    next_to_purge := c
    next_prune := 5 }

/-- A worker for the examples whose prune is due: 25 swarms, the cursor at
position 23, the clock at tick 10. -/
def w_due : announce_thread Nat Nat := { w_swarms 25 23 with now := 10 }

/-- A worker for the examples that was told to quit with two messages queued. -/
def w_quit : announce_thread Nat Nat :=
  { w_init with m_quit := true, m_queue := [[m_announce, m_scrape]], m_queue_size := 2 }

/-- A connect datagram for the examples, received with address length `len`. -/
def pkt_connect (len : Nat) : incoming_packet_t :=
  { buffer := hdr0 9230426671348449280 0 0, buflen := 16, from_ := from0, fromlen := len }

/-- An announce datagram for the examples, received with address length `len`. -/
def pkt_announce (len : Nat) : incoming_packet_t :=
  { buffer := hdr0 268 16777216 0, buflen := 98, from_ := from0, fromlen := len }

/-! ## Machine integers -/

theorem wrap32_natCast (n : Nat) : wrap32 (n : Int) = n % 4294967296 := by
  unfold wrap32
  omega

theorem wrap32_succ (n : Nat) : wrap32 ((n : Int) + 1) = (n + 1) % 4294967296 := by
  unfold wrap32
  omega

theorem wrap32_add_nat (n m : Nat) :
    wrap32 ((n : Int) + (m : Int)) = (n + m) % 4294967296 := by
  unfold wrap32
  omega

theorem size_t_of_int_of_size_t (x : Nat) (h : x < 2147483648) :
    size_t_of_int (int_of_size_t x) = x := by
  unfold size_t_of_int int_of_size_t
  split <;> omega

/-! ## Receive thread: rejected datagrams -/

/-- C1: a datagram of at least 16 bytes that is invalid (a connect without the
magic connection id, an announce or scrape whose connection id fails the
check, an announce shorter than 98 bytes, a scrape shorter than 36 bytes, or
an unknown action) adds one to the 32-bit `errors` counter and leaves the
send buffer, the messages handed to workers and `connects` as they were. -/
theorem incoming_packet_invalid (env : recv_env) (st : recv_state)
    (hdr : udp_announce_message) (size : Int) (from_ : sockaddr_in) (fromlen : Nat)
    (hsize : 16 ≤ size)
    (hinvalid :
      (ntohl hdr.action = action_connect ∧ be64toh hdr.connection_id ≠ 0x41727101980) ∨
      ((ntohl hdr.action = action_announce ∨ ntohl hdr.action = action_scrape) ∧
        verify_connection_id env.siphash env.keys hdr.connection_id from_ = false) ∨
      (ntohl hdr.action = action_announce ∧ size < 98) ∨
      (ntohl hdr.action = action_scrape ∧ size < 36) ∨
      (ntohl hdr.action ≠ action_connect ∧ ntohl hdr.action ≠ action_announce ∧
        ntohl hdr.action ≠ action_scrape)) :
    (incoming_packet env st hdr size from_ fromlen).errors = (st.errors + 1) % 4294967296 ∧
    (incoming_packet env st hdr size from_ fromlen).send_buffer = st.send_buffer ∧
    (incoming_packet env st hdr size from_ fromlen).posted = st.posted ∧
    (incoming_packet env st hdr size from_ fromlen).connects = st.connects := by
  have h16 : ¬ size < 16 := by omega
  have h01 : action_connect ≠ action_announce := by decide
  have h02 : action_connect ≠ action_scrape := by decide
  have h12 : action_announce ≠ action_scrape := by decide
  rcases hinvalid with ⟨ha, hc⟩ | ⟨ha | ha, hv⟩ | ⟨ha, hs⟩ | ⟨ha, hs⟩ | ⟨h0, h1, h2⟩
  · simp [incoming_packet, h16, ha, hc, wrap32_succ]
  · simp [incoming_packet, h16, ha, hv, h01.symm, wrap32_succ]
  · simp [incoming_packet, h16, ha, hv, h02.symm, h12.symm, wrap32_succ]
  · cases hv : verify_connection_id env.siphash env.keys hdr.connection_id from_ <;>
      simp [incoming_packet, h16, ha, hv, hs, h01.symm, wrap32_succ]
  · cases hv : verify_connection_id env.siphash env.keys hdr.connection_id from_ <;>
      simp [incoming_packet, h16, ha, hv, hs, h02.symm, h12.symm, wrap32_succ]
  · simp [incoming_packet, h16, h0, h1, h2, wrap32_succ]

/-- C1, at a 20-byte datagram with the unknown action 3. -/
theorem incoming_packet_invalid_witness :
    (incoming_packet env0 st0 (hdr0 0 50331648 0) 20 from0 16).errors = 8 ∧
    (incoming_packet env0 st0 (hdr0 0 50331648 0) 20 from0 16).send_buffer = [] ∧
    (incoming_packet env0 st0 (hdr0 0 50331648 0) 20 from0 16).posted = [] ∧
    (incoming_packet env0 st0 (hdr0 0 50331648 0) 20 from0 16).connects = 5 :=
  incoming_packet_invalid env0 st0 (hdr0 0 50331648 0) 20 from0 16 (by decide)
    (Or.inr (Or.inr (Or.inr (Or.inr (by decide)))))

/-- C2: a datagram shorter than 16 bytes adds its size to the 32-bit
`bytes_in` counter and changes nothing else, whatever the buffer holds. -/
theorem incoming_packet_short (env : recv_env) (st : recv_state)
    (hdr : udp_announce_message) (size : Int) (from_ : sockaddr_in) (fromlen : Nat)
    (hsize : size < 16) :
    incoming_packet env st hdr size from_ fromlen =
      { st with bytes_in := ((st.bytes_in + size) % 4294967296).toNat } := by
  simp [incoming_packet, hsize, wrap32]

/-- C2, at a 15-byte datagram. -/
theorem incoming_packet_short_witness :
    incoming_packet env0 st0 (hdr0 0 0 0) 15 from0 16 =
      { st0 with bytes_in := (((st0.bytes_in : Int) + 15) % 4294967296).toNat } :=
  incoming_packet_short env0 st0 (hdr0 0 0 0) 15 from0 16 (by decide)

/-! ## Receive thread: connect -/

theorem verify_generate (siphash : List Nat → List Nat → Nat) (keys : key_rotate)
    (from_ : sockaddr_in) :
    verify_connection_id siphash keys (generate_connection_id siphash keys from_) from_ =
      true := by
  simp [verify_connection_id, generate_connection_id]

theorem verify_generate_rotate (siphash : List Nat → List Nat → Nat) (keys : key_rotate)
    (from_ : sockaddr_in) (fresh : List Nat) :
    verify_connection_id siphash (keys.rotate fresh)
      (generate_connection_id siphash keys from_) from_ = true := by
  simp [verify_connection_id, generate_connection_id, key_rotate.rotate]

/-- What `incoming_packet` does with an announce of at least 98 bytes whose
connection id passes the check. -/
theorem incoming_packet_announce_eq (env : recv_env) (st : recv_state)
    (hdr : udp_announce_message) (size : Int) (from_ : sockaddr_in) (fromlen : Nat)
    (haction : ntohl hdr.action = action_announce)
    (hverify : verify_connection_id env.siphash env.keys hdr.connection_id from_ = true)
    (hsize : 98 ≤ size) :
    incoming_packet env st hdr size from_ fromlen =
      { connects := st.connects
        errors := st.errors
        bytes_in := ((st.bytes_in + size) % 4294967296).toNat
        send_buffer := st.send_buffer
        posted := st.posted ++
          [ (size_t_of_int (int_of_size_t (env.siphash_fun hdr.hash % env.num_threads)),
             { bits := { announce :=
                 { hdr with ip :=
                     if env.allow_alternate_ip = false ∨ hdr.ip = 0 then from_.sin_addr
                     else hdr.ip } }
               from_ := from_
               fromlen := fromlen }) ] } := by
  have h16 : ¬ size < 16 := by omega
  have h98 : ¬ size < 98 := by omega
  have h01 : action_announce ≠ action_connect := by decide
  by_cases hip : env.allow_alternate_ip = false ∨ hdr.ip = 0
  · have hip2 : (!env.allow_alternate_ip || hdr.ip == 0) = true := by
      rcases hip with h | h <;> simp [h]
    simp [incoming_packet, h16, h98, haction, h01, hverify, hip, hip2, wrap32]
  · have hip2 : (!env.allow_alternate_ip || hdr.ip == 0) = false := by
      simp only [not_or] at hip
      simp [hip.1, hip.2]
    simp [incoming_packet, h16, h98, haction, h01, hverify, hip, hip2, wrap32]

/-- C4: the connection id generated for an endpoint passes the check under
the same key pair and under the pair after one rotation with any fresh key;
so an announce of at least 98 bytes that carries it, from the same endpoint,
is accepted (handed to a worker, no error counted) when no rotation or one
rotation lies in between. -/
theorem connection_id_accepted (siphash : List Nat → List Nat → Nat) (keys : key_rotate)
    (from_ : sockaddr_in) (fresh : List Nat) :
    verify_connection_id siphash keys (generate_connection_id siphash keys from_) from_ =
      true ∧
    verify_connection_id siphash (keys.rotate fresh)
      (generate_connection_id siphash keys from_) from_ = true ∧
    ∀ (env : recv_env) (st : recv_state) (hdr : udp_announce_message) (size : Int)
      (fromlen : Nat),
      env.siphash = siphash → (env.keys = keys ∨ env.keys = keys.rotate fresh) →
      ntohl hdr.action = action_announce → 98 ≤ size →
      hdr.connection_id = generate_connection_id siphash keys from_ →
      (incoming_packet env st hdr size from_ fromlen).errors = st.errors ∧
      (incoming_packet env st hdr size from_ fromlen).posted.length =
        st.posted.length + 1 ∧
      ∀ p ∈ (incoming_packet env st hdr size from_ fromlen).posted, p ∉ st.posted →
        p.2.from_ = from_ ∧ p.2.bits.announce.hash = hdr.hash := by
  refine ⟨verify_generate siphash keys from_,
    verify_generate_rotate siphash keys from_ fresh, ?_⟩
  intro env st hdr size fromlen hs hk ha hsize hid
  have hv : verify_connection_id env.siphash env.keys hdr.connection_id from_ = true := by
    rw [hs, hid]
    rcases hk with hk | hk
    · rw [hk]; exact verify_generate siphash keys from_
    · rw [hk]; exact verify_generate_rotate siphash keys from_ fresh
  rw [incoming_packet_announce_eq env st hdr size from_ fromlen ha hv hsize]
  refine ⟨rfl, by simp, ?_⟩
  intro p hp hnp
  simp only [List.mem_append, List.mem_singleton] at hp
  rcases hp with hp | hp
  · exact absurd hp hnp
  · subst hp
    exact ⟨rfl, rfl⟩

/-- C4, at an announce received after the keys `[1, 2, 3]`, `[4, 5, 6]` of
the connect were rotated once with the fresh key `[7, 7]`. -/
theorem connection_id_accepted_witness :
    (incoming_packet { env0 with keys := env0.keys.rotate [7, 7] } st0
        (hdr0 268 16777216 0) 98 from0 16).errors = st0.errors ∧
    (incoming_packet { env0 with keys := env0.keys.rotate [7, 7] } st0
        (hdr0 268 16777216 0) 98 from0 16).posted.length = st0.posted.length + 1 ∧
    ∀ p ∈ (incoming_packet { env0 with keys := env0.keys.rotate [7, 7] } st0
        (hdr0 268 16777216 0) 98 from0 16).posted, p ∉ st0.posted →
      p.2.from_ = from0 ∧ p.2.bits.announce.hash = (hdr0 268 16777216 0).hash :=
  (connection_id_accepted env0.siphash env0.keys from0 [7, 7]).2.2
    { env0 with keys := env0.keys.rotate [7, 7] } st0 (hdr0 268 16777216 0) 98 16
    rfl (Or.inr rfl) (by decide) (by decide) (by decide)

/-! ## Announce worker: the queue -/

theorem post_announces_full {swarm rng : Type} (env : worker_env swarm rng)
    (w : announce_thread swarm rng) (m : List announce_msg) (hm : m ≠ [])
    (hfull : w.m_queue_size ≥ env.announce_queue_size) :
    post_announces env w m =
      { w with dropped_announces := (w.dropped_announces + m.length) % 4294967296 } := by
  simp [post_announces, hm, hfull, wrap32_add_nat]

theorem post_announces_room {swarm rng : Type} (env : worker_env swarm rng)
    (w : announce_thread swarm rng) (m : List announce_msg) (hm : m ≠ [])
    (hroom : w.m_queue_size < env.announce_queue_size) :
    post_announces env w m =
      { w with
        m_queue := w.m_queue ++ [m]
        m_queue_size := w.m_queue_size + m.length
        notified := if w.m_queue = [] then w.notified + 1 else w.notified } := by
  have hnot : ¬ w.m_queue_size ≥ env.announce_queue_size := by omega
  by_cases hq : w.m_queue = []
  · simp [post_announces, hm, hnot, hq]
  · simp [post_announces, hm, hnot, hq]

/-- C5: for a non-empty batch, `post_announces` drops the batch when
`m_queue_size ≥ announce_queue_size` (queue and size as before, the 32-bit
`dropped_announces` goes up by the size of the batch), and otherwise puts the
batch at the tail of the queue, adds its size to `m_queue_size`, leaves
`dropped_announces` alone and signals the condition variable exactly when the
queue was empty before. -/
theorem post_announces_spec {swarm rng : Type} (env : worker_env swarm rng)
    (w : announce_thread swarm rng) (m : List announce_msg) (hm : m ≠ []) :
    (w.m_queue_size ≥ env.announce_queue_size →
      post_announces env w m =
        { w with dropped_announces := (w.dropped_announces + m.length) % 4294967296 }) ∧
    (w.m_queue_size < env.announce_queue_size →
      post_announces env w m =
        { w with
          m_queue := w.m_queue ++ [m]
          m_queue_size := w.m_queue_size + m.length
          notified := if w.m_queue = [] then w.notified + 1 else w.notified }) :=
  ⟨post_announces_full env w m hm, post_announces_room env w m hm⟩

/-- C5, at the backpressure scenario of the specification: a batch of three
posted to a worker whose queue has reached the bound. -/
theorem post_announces_spec_witness :
    post_announces wenv0 { w_init with m_queue := [[m_announce, m_scrape]], m_queue_size := 2 }
        [m_announce, m_announce, m_scrape] =
      { w_init with
        m_queue := [[m_announce, m_scrape]]
        m_queue_size := 2
        dropped_announces := 3 } :=
  (post_announces_spec wenv0
    { w_init with m_queue := [[m_announce, m_scrape]], m_queue_size := 2 }
    [m_announce, m_announce, m_scrape] (by decide)).1 (by decide)

theorem total_messages_append (q : List (List announce_msg)) (b : List announce_msg) :
    total_messages (q ++ [b]) = total_messages q + b.length := by
  simp [total_messages]

theorem handle_msg_shared {swarm rng : Type} (env : worker_env swarm rng)
    (w : announce_thread swarm rng) (m : announce_msg) :
    (handle_msg env w m).m_queue = w.m_queue ∧
    (handle_msg env w m).m_queue_size = w.m_queue_size ∧
    (handle_msg env w m).m_quit = w.m_quit := by
  unfold handle_msg
  split
  · exact ⟨rfl, rfl, rfl⟩
  · split
    · exact ⟨rfl, rfl, rfl⟩
    · exact ⟨rfl, rfl, rfl⟩

theorem handle_batch_shared {swarm rng : Type} (env : worker_env swarm rng)
    (v : List announce_msg) (w : announce_thread swarm rng) :
    (v.foldl (handle_msg env) w).m_queue = w.m_queue ∧
    (v.foldl (handle_msg env) w).m_queue_size = w.m_queue_size ∧
    (v.foldl (handle_msg env) w).m_quit = w.m_quit := by
  induction v generalizing w with
  | nil => exact ⟨rfl, rfl, rfl⟩
  | cons m v ih =>
    have h1 := handle_msg_shared env w m
    have h2 := ih (handle_msg env w m)
    simp only [List.foldl_cons]
    exact ⟨h2.1.trans h1.1, h2.2.1.trans h1.2.1, h2.2.2.trans h1.2.2⟩

theorem handle_queue_shared {swarm rng : Type} (env : worker_env swarm rng)
    (queue : List (List announce_msg)) (w : announce_thread swarm rng) :
    (handle_queue env w queue).m_queue = w.m_queue ∧
    (handle_queue env w queue).m_queue_size = w.m_queue_size ∧
    (handle_queue env w queue).m_quit = w.m_quit := by
  unfold handle_queue
  induction queue generalizing w with
  | nil => exact ⟨rfl, rfl, rfl⟩
  | cons v queue ih =>
    have h1 := handle_batch_shared env v w
    have h2 := ih (v.foldl (handle_msg env) w)
    simp only [List.foldl_cons]
    exact ⟨h2.1.trans h1.1, h2.2.1.trans h1.2.1, h2.2.2.trans h1.2.2⟩

theorem purge_loop_shared {swarm rng : Type} (env : worker_env swarm rng)
    (n : Nat) (w : announce_thread swarm rng) :
    (purge_loop env n w).m_queue = w.m_queue ∧
    (purge_loop env n w).m_queue_size = w.m_queue_size ∧
    (purge_loop env n w).m_quit = w.m_quit ∧
    (purge_loop env n w).queue = w.queue := by
  induction n generalizing w with
  | zero => exact ⟨rfl, rfl, rfl, rfl⟩
  | succ n ih =>
    simp only [purge_loop]
    exact ih _

theorem prune_shared {swarm rng : Type} (env : worker_env swarm rng)
    (w : announce_thread swarm rng) :
    (prune env w).m_queue = w.m_queue ∧
    (prune env w).m_queue_size = w.m_queue_size ∧
    (prune env w).m_quit = w.m_quit ∧
    (prune env w).queue = w.queue := by
  simp only [prune]
  split_ifs
  · exact purge_loop_shared env _ _
  · exact ⟨rfl, rfl, rfl, rfl⟩
  · exact purge_loop_shared env _ _
  · exact ⟨rfl, rfl, rfl, rfl⟩
  · exact ⟨rfl, rfl, rfl, rfl⟩

theorem work_shared {swarm rng : Type} (env : worker_env swarm rng)
    (w : announce_thread swarm rng) (t : Nat) :
    (work env w t).m_queue = w.m_queue ∧
    (work env w t).m_queue_size = w.m_queue_size ∧
    (work env w t).m_quit = w.m_quit ∧
    (work env w t).queue = [] := by
  have h1 := prune_shared env { w with now := t }
  have h2 := handle_queue_shared env (prune env { w with now := t }).queue
    (prune env { w with now := t })
  exact ⟨h2.1.trans h1.1, h2.2.1.trans h1.2.1, h2.2.2.trans h1.2.2.1, rfl⟩

/-- The invariant behind the queue bound: `m_queue_size` counts the messages
of the queue, and the batches before the tail batch hold fewer than
`announce_queue_size` messages. -/
theorem queue_invariant {swarm rng : Type} (env : worker_env swarm rng)
    (w0 w : announce_thread swarm rng) (h0q : w0.m_queue = []) (h0s : w0.m_queue_size = 0)
    (hr : reachable env w0 w) :
    w.m_queue_size = total_messages w.m_queue ∧
    ∀ q b, w.m_queue = q ++ [b] → total_messages q < env.announce_queue_size := by
  induction hr with
  | start =>
    refine ⟨by simp [h0q, h0s, total_messages], ?_⟩
    intro q b h
    rw [h0q] at h
    exact absurd h (by simp)
  | step w w1 _ hstep ih =>
    cases hstep with
    | post m =>
      by_cases hm : m = []
      · have : post_announces env w m = w := by simp [post_announces, hm]
        rw [this]
        exact ih
      · by_cases hfull : w.m_queue_size ≥ env.announce_queue_size
        · rw [post_announces_full env w m hm hfull]
          exact ih
        · have hroom : w.m_queue_size < env.announce_queue_size := by omega
          rw [post_announces_room env w m hm hroom]
          refine ⟨?_, ?_⟩
          · show w.m_queue_size + m.length = total_messages (w.m_queue ++ [m])
            rw [total_messages_append, ih.1]
          · intro q b h
            have h2 : w.m_queue ++ [m] = q ++ [b] := h
            have h3 := List.append_inj_left' h2 rfl
            rw [← h3, ← ih.1]
            exact hroom
    | take hquit hq =>
      refine ⟨by simp [take_queue, hq, total_messages], ?_⟩
      intro q b h
      have h2 : w.queue = q ++ [b] := h
      rw [hq] at h2
      exact absurd h2 (by simp)
    | work t =>
      have hw := work_shared env w t
      rw [hw.1, hw.2.1]
      exact ih
    | quit => exact ih

/-- C6 fails as stated: with `announce_queue_size = 2`, a batch of three
posted to the empty queue of a fresh worker is accepted, and the queue then
holds three messages. -/
theorem queue_bound_counterexample :
    reachable wenv0 w_init (post_announces wenv0 w_init [m_announce, m_announce, m_scrape]) ∧
    ¬ total_messages
        (post_announces wenv0 w_init [m_announce, m_announce, m_scrape]).m_queue ≤
      wenv0.announce_queue_size :=
  ⟨reachable.step w_init _ reachable.start (worker_step.post w_init _), by decide⟩

/-- C6, amended: in every state reached from an empty queue by posts and
drains, the batches before the tail batch of the queue hold fewer than
`announce_queue_size` messages, so the queue holds fewer than
`announce_queue_size` plus the size of its tail batch. -/
theorem queue_bound {swarm rng : Type} (env : worker_env swarm rng)
    (w0 w : announce_thread swarm rng) (h0q : w0.m_queue = []) (h0s : w0.m_queue_size = 0)
    (hr : reachable env w0 w) (q : List (List announce_msg)) (b : List announce_msg)
    (hqueue : w.m_queue = q ++ [b]) :
    total_messages q < env.announce_queue_size ∧
    total_messages w.m_queue < env.announce_queue_size + b.length := by
  have h := (queue_invariant env w0 w h0q h0s hr).2 q b hqueue
  refine ⟨h, ?_⟩
  rw [hqueue, total_messages_append]
  omega

/-- C6 amended, at the queue of the counterexample. -/
theorem queue_bound_witness :
    total_messages ([] : List (List announce_msg)) < wenv0.announce_queue_size ∧
    total_messages (post_announces wenv0 w_init [m_announce, m_announce, m_scrape]).m_queue <
      wenv0.announce_queue_size + [m_announce, m_announce, m_scrape].length :=
  queue_bound wenv0 w_init (post_announces wenv0 w_init [m_announce, m_announce, m_scrape])
    rfl rfl (reachable.step w_init _ reachable.start (worker_step.post w_init _))
    [] [m_announce, m_announce, m_scrape] rfl

/-! ## SipHash-2-4: the vectors of the reference implementation -/

theorem siphash24_vector_empty :
    siphash24 [] (List.range 16) = 0x726fdb47dd0e0e31 := by decide

theorem siphash24_vector_15 :
    siphash24 (List.range 15) (List.range 16) = 0xa129ca6149be45e5 := by decide

/-! ## Receive thread: announce and scrape -/

/-- What `incoming_packet` does with a scrape of at least 36 bytes whose
connection id passes the check. -/
theorem incoming_packet_scrape_eq (env : recv_env) (st : recv_state)
    (hdr : udp_announce_message) (size : Int) (from_ : sockaddr_in) (fromlen : Nat)
    (haction : ntohl hdr.action = action_scrape)
    (hverify : verify_connection_id env.siphash env.keys hdr.connection_id from_ = true)
    (hsize : 36 ≤ size) :
    incoming_packet env st hdr size from_ fromlen =
      { connects := st.connects
        errors := st.errors
        bytes_in := ((st.bytes_in + size) % 4294967296).toNat
        send_buffer := st.send_buffer
        posted := st.posted ++
          [ (size_t_of_int (int_of_size_t (hdr.hash.val.headD 0 % env.num_threads)),
             { bits := env.uninit_msg.bits.set_scrape (scrape_view hdr)
               from_ := from_
               fromlen := fromlen }) ] } := by
  have h16 : ¬ size < 16 := by omega
  have h36 : ¬ size < 36 := by omega
  have h20 : action_scrape ≠ action_connect := by decide
  have h21 : action_scrape ≠ action_announce := by decide
  simp [incoming_packet, h16, h36, haction, h20, h21, hverify, wrap32, scrape_view]

/-- The worker index of an accepted announce, for a worker list of at most
`2^31` entries. -/
theorem announce_selector_eq (env : recv_env) (h : sha1_hash)
    (hW : 0 < env.num_threads) (hmax : env.num_threads ≤ 2147483648) :
    size_t_of_int (int_of_size_t (env.siphash_fun h % env.num_threads)) =
      env.siphash_fun h % env.num_threads := by
  have hlt : env.siphash_fun h % env.num_threads < env.num_threads := Nat.mod_lt _ hW
  exact size_t_of_int_of_size_t _ (by omega)

/-- C7 fails on the code: with two workers and the swarm-map key
`00 01 … 0f`, an accepted announce for the info-hash `01 01 … 01` is handed to
worker 0 (SipHash-2-4 of the hash is even) and an accepted scrape for the same
info-hash to worker 1 (the first element of the hash is odd). -/
theorem thread_selector_mismatch :
    ((incoming_packet env1 st0
        (hdr0 (generate_connection_id env1.siphash env1.keys from0) 16777216 0)
        98 from0 16).posted.map Prod.fst = [0]) ∧
    ((incoming_packet env1 st0
        (hdr0 (generate_connection_id env1.siphash env1.keys from0) 33554432 0)
        36 from0 16).posted.map Prod.fst = [1]) := by
  decide

/-- C9: an announce (action 1) of at least 98 bytes whose connection id passes
the check makes exactly one hand-over, of a message with the info-hash of the
datagram and the sender address, to the worker with index
`siphash_fun(info_hash) mod W`; `errors`, `connects` and the send buffer stay
as they were.  `W` is the number of workers, at least 1 and at most `2^31`. -/
theorem incoming_packet_announce (env : recv_env) (st : recv_state)
    (hdr : udp_announce_message) (size : Int) (from_ : sockaddr_in) (fromlen : Nat)
    (haction : ntohl hdr.action = 1)
    (hverify : verify_connection_id env.siphash env.keys hdr.connection_id from_ = true)
    (hsize : 98 ≤ size)
    (hW : 0 < env.num_threads) (hmax : env.num_threads ≤ 2147483648) :
    ∃ m : announce_msg,
      m.from_ = from_ ∧ m.fromlen = fromlen ∧
      ntohl m.bits.announce.action = 1 ∧ m.bits.announce.hash = hdr.hash ∧
      incoming_packet env st hdr size from_ fromlen =
        { connects := st.connects
          errors := st.errors
          bytes_in := ((st.bytes_in + size) % 4294967296).toNat
          send_buffer := st.send_buffer
          posted := st.posted ++ [(env.siphash_fun hdr.hash % env.num_threads, m)] } := by
  refine ⟨{ bits := { announce :=
              { hdr with ip :=
                  if env.allow_alternate_ip = false ∨ hdr.ip = 0 then from_.sin_addr
                  else hdr.ip } }
            from_ := from_
            fromlen := fromlen }, rfl, rfl, haction, rfl, ?_⟩
  rw [incoming_packet_announce_eq env st hdr size from_ fromlen haction hverify hsize,
    announce_selector_eq env hdr.hash hW hmax]

/-- C9, at a 98-byte announce (no extension field) for the info-hash
`01 01 … 01`, with SipHash-2-4 and two workers. -/
theorem incoming_packet_announce_witness :
    ∃ m : announce_msg,
      m.from_ = from0 ∧ m.fromlen = 16 ∧
      ntohl m.bits.announce.action = 1 ∧
      m.bits.announce.hash =
        (hdr0 (generate_connection_id env1.siphash env1.keys from0) 16777216 0).hash ∧
      incoming_packet env1 st0
          (hdr0 (generate_connection_id env1.siphash env1.keys from0) 16777216 0)
          98 from0 16 =
        { connects := st0.connects
          errors := st0.errors
          bytes_in := (((st0.bytes_in : Int) + 98) % 4294967296).toNat
          send_buffer := st0.send_buffer
          posted := st0.posted ++
            [(env1.siphash_fun
                (hdr0 (generate_connection_id env1.siphash env1.keys from0) 16777216 0).hash %
                  env1.num_threads, m)] } :=
  incoming_packet_announce env1 st0
    (hdr0 (generate_connection_id env1.siphash env1.keys from0) 16777216 0) 98 from0 16
    (by decide) (by decide) (by decide) (by decide) (by decide)

/-- C10: the message handed over for an accepted announce is the header of
the datagram with the `ip` field set to the source address of the sender when
`allow_alternate_ip` is false or the declared `ip` is zero, and with the
declared `ip` kept otherwise; every other field is the one of the datagram. -/
theorem announce_ip_field (env : recv_env) (st : recv_state)
    (hdr : udp_announce_message) (size : Int) (from_ : sockaddr_in) (fromlen : Nat)
    (haction : ntohl hdr.action = 1)
    (hverify : verify_connection_id env.siphash env.keys hdr.connection_id from_ = true)
    (hsize : 98 ≤ size) :
    ∃ i : Nat,
      (incoming_packet env st hdr size from_ fromlen).posted = st.posted ++
        [ (i,
           { bits := { announce :=
               { hdr with ip :=
                   if env.allow_alternate_ip = false ∨ hdr.ip = 0 then from_.sin_addr
                   else hdr.ip } }
             from_ := from_
             fromlen := fromlen }) ] := by
  refine ⟨size_t_of_int (int_of_size_t (env.siphash_fun hdr.hash % env.num_threads)), ?_⟩
  rw [incoming_packet_announce_eq env st hdr size from_ fromlen haction hverify hsize]

/-- C10, at an announce that declares the ip 1.2.3.4 while alternate ips are
allowed: the declared ip is kept. -/
theorem announce_ip_field_witness :
    ∃ i : Nat,
      (incoming_packet env0 st0 (hdr0 268 16777216 67305985) 100 from0 16).posted =
        st0.posted ++
          [ (i,
             { bits := { announce :=
                 { hdr0 268 16777216 67305985 with ip :=
                     if env0.allow_alternate_ip = false ∨
                         (hdr0 268 16777216 67305985).ip = 0 then from0.sin_addr
                     else (hdr0 268 16777216 67305985).ip } }
               from_ := from0
               fromlen := 16 }) ] :=
  announce_ip_field env0 st0 (hdr0 268 16777216 67305985) 100 from0 16
    (by decide) (by decide) (by decide)

/-! ## Announce worker: scrape -/

/-- What the worker does with a scrape message: one response of 20 bytes to
the sender, with action 2 in network order and the transaction id of the
request; the stats are those of the swarm, in network order, when the table
has one for the info-hash, and are not written otherwise; the table is not
changed. -/
theorem handle_msg_scrape {swarm rng : Type} (env : worker_env swarm rng)
    (w : announce_thread swarm rng) (m : announce_msg)
    (haction : ntohl m.bits.announce.action = action_scrape) :
    handle_msg env w m =
      { w with
        scrapes := (w.scrapes + 1) % 4294967296
        send_buffer := w.send_buffer ++
          [ { iov :=
                [ { iov_base := iov_object.scrape
                      { action := htonl 2
                        transaction_id := m.bits.announce.transaction_id
                        data :=
                          match swarm_find w.m_swarms m.bits.announce.hash with
                          | some s =>
                            { seeds := htonl (env.scrape s).seeds
                              download_count := htonl (env.scrape s).download_count
                              downloaders := htonl (env.scrape s).downloaders }
                          | none => env.uninit_scrape_response.data }
                    iov_len := 20 } ]
              to_ := m.from_
              tolen := none } ] } := by
  have h21 : action_scrape ≠ action_announce := by decide
  simp only [handle_msg, haction, h21, if_false, if_true, wrap32_succ,
    packet_buffer.append, msg_bits.scrape, scrape_view]
  cases swarm_find w.m_swarms m.bits.announce.hash <;> rfl

/-- C8 fails on the code: a scrape for an info-hash the table has no swarm
for (here the empty table of a fresh worker) is answered with the stats of
the response object as it was declared, which the code never writes; with
`57005, 48879, 61453` in that object the response carries these, not zeros. -/
theorem scrape_absent_not_zeroed :
    swarm_find w_init.m_swarms m_scrape.bits.scrape.hash = none ∧
    (handle_msg wenv0 w_init m_scrape).send_buffer =
      [ { iov :=
            [ { iov_base := iov_object.scrape
                  { action := 33554432
                    transaction_id := 4022250974
                    data := { seeds := 57005, download_count := 48879, downloaders := 61453 } }
                iov_len := 20 } ]
          to_ := from0
          tolen := none } ] := by
  decide

/-! ## Announce worker: announce -/

theorem bswap4_bytes (b0 b1 b2 b3 : Nat) (h0 : b0 < 256) (h1 : b1 < 256) (h2 : b2 < 256)
    (h3 : b3 < 256) :
    bswap 4 (b0 + 256 * (b1 + 256 * (b2 + 256 * b3))) =
      b3 + 256 * (b2 + 256 * (b1 + 256 * b0)) := by
  simp only [bswap, bytes_le, of_bytes_be, List.foldl_cons, List.foldl_nil]
  omega

theorem ntohl_htonl (x : Nat) (h : x < 4294967296) : ntohl (htonl x) = x := by
  have hx : x = x % 256 + 256 * (x / 256 % 256 + 256 * (x / 65536 % 256 +
      256 * (x / 16777216))) := by omega
  have h3 : x / 16777216 < 256 := by omega
  have h0 : x % 256 < 256 := Nat.mod_lt _ (by decide)
  have h1 : x / 256 % 256 < 256 := Nat.mod_lt _ (by decide)
  have h2 : x / 65536 % 256 < 256 := Nat.mod_lt _ (by decide)
  unfold ntohl htonl
  rw [hx, bswap4_bytes _ _ _ _ h0 h1 h2 h3, bswap4_bytes _ _ _ _ h3 h2 h1 h0]

theorem swarm_find_touch {swarm : Type} (new_swarm : swarm) (t : List (sha1_hash × swarm))
    (h : sha1_hash) :
    swarm_find (swarm_touch new_swarm t h) h =
      some ((swarm_find t h).getD new_swarm) := by
  unfold swarm_touch
  cases hf : swarm_find t h with
  | some s => simp [hf]
  | none =>
    have hnone : t.find? (fun e => e.1 == h) = none := by
      simpa [swarm_find] using hf
    simp [swarm_find, List.find?_append, hnone]

theorem swarm_find_store {swarm : Type} (t : List (sha1_hash × swarm)) (h : sha1_hash)
    (s : swarm) (hs : (swarm_find t h).isSome) :
    swarm_find (swarm_store t h s) h = some s := by
  induction t with
  | nil => simp [swarm_find] at hs
  | cons e t ih =>
    by_cases he : e.1 = h
    · simp [swarm_find, swarm_store, he]
    · have hs2 : (swarm_find t h).isSome := by
        simpa [swarm_find, List.find?_cons, he] using hs
      have := ih hs2
      simpa [swarm_find, swarm_store, List.find?_cons, he] using this

/-- What the worker does with an announce message. -/
theorem handle_msg_announce_eq {swarm rng : Type} (env : worker_env swarm rng)
    (w : announce_thread swarm rng) (m : announce_msg)
    (haction : ntohl m.bits.announce.action = action_announce) :
    handle_msg env w m =
      { w with
        m_swarms :=
          swarm_store (swarm_touch env.new_swarm w.m_swarms m.bits.announce.hash)
            m.bits.announce.hash (announce_call env w m).swarm
        mt_engine := (announce_call env w m).mt_engine
        announces := (w.announces + 1) % 4294967296
        send_buffer := w.send_buffer ++
          [ { iov :=
                [ { iov_base := iov_object.announce
                      { action := htonl 1
                        transaction_id := m.bits.announce.transaction_id
                        interval := htonl (1680 + (env.rand w.mt_engine).1)
                        downloaders := htonl (announce_call env w m).downloaders
                        seeds := htonl (announce_call env w m).seeds }
                    iov_len := 20 },
                  { iov_base := iov_object.peers (announce_call env w m).buf
                    iov_len := size_t_of_int (announce_call env w m).len } ]
              to_ := m.from_
              tolen := none } ] } := by
  simp only [handle_msg, haction, if_true, wrap32_succ, packet_buffer.append,
    announce_call, swarm_find_touch, Option.getD_some]
  rfl

/-- C11: for an announce message (action 1) the worker leaves a swarm for the
info-hash in its table (the one `swarm.announce` worked on, created if there
was none), adds one to the 32-bit `announces`, and appends one response to the
sender: a 20-byte header followed by the peer list of `swarm.announce`; the
header has action 1, the transaction id of the request, an interval between
1680 and 1920 and the two counts of `swarm.announce`, all in network order. -/
theorem handle_msg_announce {swarm rng : Type} (env : worker_env swarm rng)
    (w : announce_thread swarm rng) (m : announce_msg)
    (haction : ntohl m.bits.announce.action = 1) :
    swarm_find (handle_msg env w m).m_swarms m.bits.announce.hash =
      some (announce_call env w m).swarm ∧
    (handle_msg env w m).announces = (w.announces + 1) % 4294967296 ∧
    (∃ interval : Nat, 1680 ≤ interval ∧ interval ≤ 1920 ∧
      ntohl (htonl interval) = interval ∧
      (handle_msg env w m).send_buffer = w.send_buffer ++
        [ { iov :=
              [ { iov_base := iov_object.announce
                    { action := htonl 1
                      transaction_id := m.bits.announce.transaction_id
                      interval := htonl interval
                      downloaders := htonl (announce_call env w m).downloaders
                      seeds := htonl (announce_call env w m).seeds }
                  iov_len := 20 },
                { iov_base := iov_object.peers (announce_call env w m).buf
                  iov_len := size_t_of_int (announce_call env w m).len } ]
            to_ := m.from_
            tolen := none } ]) := by
  have ha : ntohl m.bits.announce.action = action_announce := haction
  have hr := env.rand_le w.mt_engine
  rw [handle_msg_announce_eq env w m ha]
  refine ⟨?_, rfl, 1680 + (env.rand w.mt_engine).1, by omega, by omega,
    ntohl_htonl _ (by omega), rfl⟩
  apply swarm_find_store
  rw [swarm_find_touch]
  rfl

/-- C11, at the first announce a fresh worker gets: the swarm is created, the
interval is 1680 (`0x90060000` in network order) and the peer list is empty. -/
theorem handle_msg_announce_witness :
    swarm_find (handle_msg wenv0 w_init m_announce).m_swarms m_announce.bits.announce.hash =
      some (announce_call wenv0 w_init m_announce).swarm ∧
    (handle_msg wenv0 w_init m_announce).announces = (w_init.announces + 1) % 4294967296 ∧
    (∃ interval : Nat, 1680 ≤ interval ∧ interval ≤ 1920 ∧
      ntohl (htonl interval) = interval ∧
      (handle_msg wenv0 w_init m_announce).send_buffer = w_init.send_buffer ++
        [ { iov :=
              [ { iov_base := iov_object.announce
                    { action := htonl 1
                      transaction_id := m_announce.bits.announce.transaction_id
                      interval := htonl interval
                      downloaders := htonl (announce_call wenv0 w_init m_announce).downloaders
                      seeds := htonl (announce_call wenv0 w_init m_announce).seeds }
                  iov_len := 20 },
                { iov_base := iov_object.peers (announce_call wenv0 w_init m_announce).buf
                  iov_len := size_t_of_int (announce_call wenv0 w_init m_announce).len } ]
            to_ := m_announce.from_
            tolen := none } ]) :=
  handle_msg_announce wenv0 w_init m_announce (by decide)

/-! ## Announce worker: the quit flag -/

/-- C12: with the quit flag set the thread does not wait, and the next
iteration leaves the loop before the queue is swapped: the state at the return
of `thread_fun` is the state before, so nothing is answered, no swarm is
created or changed and `announces` and `scrapes` keep their values, whatever
the queue holds. -/
theorem quit_drops_queue {swarm rng : Type} (env : worker_env swarm rng)
    (w : announce_thread swarm rng) (t : Nat) (ts : List Nat) (hquit : w.m_quit = true) :
    must_wait w t = false ∧ iteration env w t = none ∧
    thread_fun_loop env (t :: ts) w = w := by
  refine ⟨by simp [must_wait, hquit], by simp [iteration, hquit], ?_⟩
  simp [thread_fun_loop, iteration, hquit]

/-- C12, at a worker told to quit with two messages queued. -/
theorem quit_drops_queue_witness :
    must_wait w_quit 3 = false ∧ iteration wenv0 w_quit 3 = none ∧
    thread_fun_loop wenv0 (3 :: [4, 5]) w_quit = w_quit :=
  quit_drops_queue wenv0 w_quit 3 [4, 5] rfl

/-- The receive thread hands over announce and scrape messages only: a
message `incoming_packet` adds to the hand-overs has action 1 or 2. -/
theorem incoming_packet_posted_action (env : recv_env) (st : recv_state)
    (hdr : udp_announce_message) (size : Int) (from_ : sockaddr_in) (fromlen : Nat) :
    ∀ p ∈ (incoming_packet env st hdr size from_ fromlen).posted, p ∉ st.posted →
      ntohl p.2.bits.announce.action = 1 ∨ ntohl p.2.bits.announce.action = 2 := by
  intro p hp hnew
  by_cases h16 : size < 16
  · simp [incoming_packet, h16] at hp
    exact absurd hp hnew
  by_cases h0 : ntohl hdr.action = action_connect
  · by_cases hmagic : be64toh hdr.connection_id = 0x41727101980
    · simp [incoming_packet, h16, h0, hmagic] at hp
      exact absurd hp hnew
    · simp [incoming_packet, h16, h0, hmagic] at hp
      exact absurd hp hnew
  by_cases h1 : ntohl hdr.action = action_announce
  · cases hv : verify_connection_id env.siphash env.keys hdr.connection_id from_ with
    | false =>
      simp [incoming_packet, h16, h0, h1, hv] at hp
      exact absurd hp hnew
    | true =>
      by_cases h98 : size < 98
      · simp [incoming_packet, h16, h0, h1, hv, h98] at hp
        exact absurd hp hnew
      · rw [incoming_packet_announce_eq env st hdr size from_ fromlen h1 hv (by omega)] at hp
        simp only [List.mem_append, List.mem_singleton] at hp
        rcases hp with hp | hp
        · exact absurd hp hnew
        · subst hp
          exact Or.inl h1
  by_cases h2 : ntohl hdr.action = action_scrape
  · cases hv : verify_connection_id env.siphash env.keys hdr.connection_id from_ with
    | false =>
      simp [incoming_packet, h16, h0, h1, h2, hv] at hp
      exact absurd hp hnew
    | true =>
      by_cases h36 : size < 36
      · simp [incoming_packet, h16, h0, h1, h2, hv, h36] at hp
        exact absurd hp hnew
      · rw [incoming_packet_scrape_eq env st hdr size from_ fromlen h2 hv (by omega)] at hp
        simp only [List.mem_append, List.mem_singleton] at hp
        rcases hp with hp | hp
        · exact absurd hp hnew
        · subst hp
          exact Or.inr h2
  · simp [incoming_packet, h16, h0, h1, h2] at hp
    exact absurd hp hnew

/-! ## Announce worker: order of the responses -/

theorem accepted_batches_subset (bound : Nat) (bs : List (List announce_msg)) (size : Nat) :
    ∀ b ∈ accepted_batches bound size bs, b ∈ bs := by
  induction bs generalizing size with
  | nil => simp [accepted_batches]
  | cons b0 bs ih =>
    intro b hb
    unfold accepted_batches at hb
    split at hb
    · exact List.mem_cons_of_mem _ (ih size b hb)
    · rcases List.mem_cons.1 hb with h | h
      · rw [h]; exact List.mem_cons_self _ _
      · exact List.mem_cons_of_mem _ (ih _ b h)

/-- The queue after a sequence of posts holds, behind what it held, the
accepted batches in posting order; a post touches nothing but the queue, its
size, `dropped_announces` and the signal count. -/
theorem post_all_eq {swarm rng : Type} (env : worker_env swarm rng)
    (bs : List (List announce_msg)) (w : announce_thread swarm rng) :
    ∃ size dropped notified,
      bs.foldl (post_announces env) w =
        { w with
          m_queue := w.m_queue ++ accepted_batches env.announce_queue_size w.m_queue_size bs
          m_queue_size := size
          dropped_announces := dropped
          notified := notified } := by
  induction bs generalizing w with
  | nil => exact ⟨w.m_queue_size, w.dropped_announces, w.notified, by simp [accepted_batches]⟩
  | cons b bs ih =>
    simp only [List.foldl_cons]
    by_cases hb : b = []
    · have hpost : post_announces env w b = w := by simp [post_announces, hb]
      obtain ⟨size, dropped, notified, h⟩ := ih w
      refine ⟨size, dropped, notified, ?_⟩
      rw [hpost, h]
      simp [accepted_batches, hb]
    · by_cases hfull : w.m_queue_size ≥ env.announce_queue_size
      · obtain ⟨size, dropped, notified, h⟩ := ih (post_announces env w b)
        refine ⟨size, dropped, notified, ?_⟩
        rw [h, post_announces_full env w b hb hfull]
        simp [accepted_batches, hb, hfull]
      · have hroom : w.m_queue_size < env.announce_queue_size := by omega
        obtain ⟨size, dropped, notified, h⟩ := ih (post_announces env w b)
        refine ⟨size, dropped, notified, ?_⟩
        rw [h, post_announces_room env w b hb hroom]
        simp [accepted_batches, hb, hfull]

theorem handle_msg_out {swarm rng : Type} (env : worker_env swarm rng)
    (w : announce_thread swarm rng) (m : announce_msg)
    (haction : ntohl m.bits.announce.action = 1 ∨ ntohl m.bits.announce.action = 2) :
    ∃ p : out_packet, p.tag = m.tag ∧
      (handle_msg env w m).send_buffer = w.send_buffer ++ [p] ∧
      (handle_msg env w m).sent = w.sent := by
  rcases haction with ha | ha
  · have ha1 : ntohl m.bits.announce.action = action_announce := ha
    rw [handle_msg_announce_eq env w m ha1]
    exact ⟨_, by simp [out_packet.tag, announce_msg.tag, ha], rfl, rfl⟩
  · have ha2 : ntohl m.bits.announce.action = action_scrape := ha
    rw [handle_msg_scrape env w m ha2]
    exact ⟨_, by simp [out_packet.tag, announce_msg.tag, ha], rfl, rfl⟩

theorem handle_batch_out {swarm rng : Type} (env : worker_env swarm rng)
    (v : List announce_msg) (w : announce_thread swarm rng)
    (haction : ∀ m ∈ v, ntohl m.bits.announce.action = 1 ∨ ntohl m.bits.announce.action = 2) :
    ∃ rs : List out_packet, rs.map out_packet.tag = v.map announce_msg.tag ∧
      (v.foldl (handle_msg env) w).send_buffer = w.send_buffer ++ rs ∧
      (v.foldl (handle_msg env) w).sent = w.sent := by
  induction v generalizing w with
  | nil => exact ⟨[], rfl, by simp, rfl⟩
  | cons m v ih =>
    obtain ⟨p, hp, hbuf, hsent⟩ := handle_msg_out env w m (haction m (List.mem_cons_self _ _))
    obtain ⟨rs, hrs, hbuf2, hsent2⟩ :=
      ih (handle_msg env w m) (fun m1 h1 => haction m1 (List.mem_cons_of_mem _ h1))
    refine ⟨p :: rs, by simp [hp, hrs], ?_, ?_⟩
    · simp only [List.foldl_cons]
      rw [hbuf2, hbuf]
      simp
    · simp only [List.foldl_cons]
      rw [hsent2, hsent]

theorem handle_queue_out {swarm rng : Type} (env : worker_env swarm rng)
    (q : List (List announce_msg)) (w : announce_thread swarm rng)
    (haction : ∀ v ∈ q, ∀ m ∈ v,
      ntohl m.bits.announce.action = 1 ∨ ntohl m.bits.announce.action = 2) :
    ∃ rs : List out_packet, rs.map out_packet.tag = q.flatten.map announce_msg.tag ∧
      (handle_queue env w q).send_buffer = w.send_buffer ++ rs ∧
      (handle_queue env w q).sent = w.sent := by
  unfold handle_queue
  induction q generalizing w with
  | nil => exact ⟨[], rfl, by simp, rfl⟩
  | cons v q ih =>
    obtain ⟨rs1, hrs1, hbuf1, hsent1⟩ :=
      handle_batch_out env v w (haction v (List.mem_cons_self _ _))
    obtain ⟨rs2, hrs2, hbuf2, hsent2⟩ :=
      ih (v.foldl (handle_msg env) w) (fun v1 h1 => haction v1 (List.mem_cons_of_mem _ h1))
    refine ⟨rs1 ++ rs2, by simp [hrs1, hrs2], ?_, ?_⟩
    · simp only [List.foldl_cons]
      rw [hbuf2, hbuf1]
      simp
    · simp only [List.foldl_cons]
      rw [hsent2, hsent1]

theorem purge_loop_out {swarm rng : Type} (env : worker_env swarm rng)
    (n : Nat) (w : announce_thread swarm rng) :
    (purge_loop env n w).send_buffer = w.send_buffer ∧
    (purge_loop env n w).sent = w.sent ∧
    (purge_loop env n w).announces = w.announces ∧
    (purge_loop env n w).scrapes = w.scrapes ∧
    (purge_loop env n w).now = w.now ∧
    (purge_loop env n w).next_prune = w.next_prune := by
  induction n generalizing w with
  | zero => exact ⟨rfl, rfl, rfl, rfl, rfl, rfl⟩
  | succ n ih =>
    simp only [purge_loop]
    exact ih _

theorem prune_out {swarm rng : Type} (env : worker_env swarm rng)
    (w : announce_thread swarm rng) :
    (prune env w).send_buffer = w.send_buffer ∧
    (prune env w).sent = w.sent ∧
    (prune env w).announces = w.announces ∧
    (prune env w).scrapes = w.scrapes ∧
    (prune env w).now = w.now := by
  simp only [prune]
  split_ifs
  · exact ⟨(purge_loop_out env _ _).1, (purge_loop_out env _ _).2.1,
      (purge_loop_out env _ _).2.2.1, (purge_loop_out env _ _).2.2.2.1,
      (purge_loop_out env _ _).2.2.2.2.1⟩
  · exact ⟨rfl, rfl, rfl, rfl, rfl⟩
  · exact ⟨(purge_loop_out env _ _).1, (purge_loop_out env _ _).2.1,
      (purge_loop_out env _ _).2.2.1, (purge_loop_out env _ _).2.2.2.1,
      (purge_loop_out env _ _).2.2.2.2.1⟩
  · exact ⟨rfl, rfl, rfl, rfl, rfl⟩
  · exact ⟨rfl, rfl, rfl, rfl, rfl⟩

/-- The datagrams an iteration hands to the socket, after the swap: what the
send buffer held, then one response for each message of the local queue, in
the order of the queue. -/
theorem work_sent {swarm rng : Type} (env : worker_env swarm rng)
    (w : announce_thread swarm rng) (t : Nat)
    (haction : ∀ v ∈ w.queue, ∀ m ∈ v,
      ntohl m.bits.announce.action = 1 ∨ ntohl m.bits.announce.action = 2) :
    ∃ rs : List out_packet,
      rs.map out_packet.tag = w.queue.flatten.map announce_msg.tag ∧
      (work env w t).sent = w.sent ++ (w.send_buffer ++ rs) := by
  have hp := prune_out env { w with now := t }
  have hpq : (prune env { w with now := t }).queue = w.queue :=
    (prune_shared env { w with now := t }).2.2.2
  obtain ⟨rs, hrs, hbuf2, hsent2⟩ := handle_queue_out env
    (prune env { w with now := t }).queue (prune env { w with now := t })
    (by rw [hpq]; exact haction)
  refine ⟨rs, by rw [hrs, hpq], ?_⟩
  show (handle_queue env (prune env { w with now := t })
      (prune env { w with now := t }).queue).sent ++
    (handle_queue env (prune env { w with now := t })
      (prune env { w with now := t }).queue).send_buffer = _
  rw [hsent2, hbuf2, hp.1, hp.2.1]

/-- C13: a worker at the head of its loop (queue empty, send buffer flushed,
quit flag clear) gets the batches `bs` posted, of announce and scrape
messages, and then drains: the datagrams it appends and hands to the socket in
that iteration answer, one for one and in order, the messages of the accepted
batches in posting order, each batch in its own order. -/
theorem drain_fifo {swarm rng : Type} (env : worker_env swarm rng)
    (w : announce_thread swarm rng) (bs : List (List announce_msg)) (t : Nat)
    (hqueue : w.m_queue = []) (hbuf : w.send_buffer = []) (hquit : w.m_quit = false)
    (haction : ∀ b ∈ bs, ∀ m ∈ b,
      ntohl m.bits.announce.action = 1 ∨ ntohl m.bits.announce.action = 2) :
    ∃ (w1 : announce_thread swarm rng) (rs : List out_packet),
      iteration env (bs.foldl (post_announces env) w) t = some w1 ∧
      w1.sent = w.sent ++ rs ∧
      rs.map out_packet.tag =
        (accepted_batches env.announce_queue_size w.m_queue_size bs).flatten.map
          announce_msg.tag := by
  obtain ⟨size, dropped, notified, hpost⟩ := post_all_eq env bs w
  have hq1 : (take_queue (bs.foldl (post_announces env) w)).queue =
      accepted_batches env.announce_queue_size w.m_queue_size bs := by
    rw [hpost]
    simp [take_queue, hqueue]
  have hs1 : (take_queue (bs.foldl (post_announces env) w)).sent = w.sent := by
    rw [hpost]
    rfl
  have hb1 : (take_queue (bs.foldl (post_announces env) w)).send_buffer = [] := by
    rw [hpost]
    exact hbuf
  have hquit1 : (bs.foldl (post_announces env) w).m_quit = false := by
    rw [hpost]
    exact hquit
  obtain ⟨rs, hrs, hsent⟩ := work_sent env (take_queue (bs.foldl (post_announces env) w)) t
    (by
      rw [hq1]
      exact fun v hv => haction v (accepted_batches_subset _ bs _ v hv))
  refine ⟨work env (take_queue (bs.foldl (post_announces env) w)) t, rs, ?_, ?_, ?_⟩
  · simp [iteration, hquit1]
  · rw [hsent, hs1, hb1]
    simp
  · rw [hrs, hq1]

/-- C13, at a fresh worker with queue bound 2 that gets the batches
`[announce]`, `[scrape, scrape]` and `[announce]` posted: the first two are
accepted (fewer than 2 messages are counted at their turn), the third is
dropped, and the drain answers announce, scrape, scrape in this order. -/
theorem drain_fifo_witness :
    ∃ (w1 : announce_thread Nat Nat) (rs : List out_packet),
      iteration wenv0
        ([[m_announce], [m_scrape, m_scrape], [m_announce]].foldl (post_announces wenv0) w_init)
        3 = some w1 ∧
      w1.sent = w_init.sent ++ rs ∧
      rs.map out_packet.tag =
        (accepted_batches wenv0.announce_queue_size w_init.m_queue_size
          [[m_announce], [m_scrape, m_scrape], [m_announce]]).flatten.map announce_msg.tag :=
  drain_fifo wenv0 w_init [[m_announce], [m_scrape, m_scrape], [m_announce]] 3 rfl rfl rfl
    (by decide)

/-- The drain of the example: three datagrams are handed to the socket, the
answers to the announce (action 1, in network order 16777216) and to the two
scrapes (action 2, in network order 33554432), in this order; the announce of
the dropped batch is not answered. -/
theorem drain_fifo_example :
    (iteration wenv0
        ([[m_announce], [m_scrape, m_scrape], [m_announce]].foldl (post_announces wenv0) w_init)
        3).map (fun w1 => w1.sent.map out_packet.tag) =
      some [(from0, some (16777216, 4022250974)), (from0, some (33554432, 4022250974)),
        (from0, some (33554432, 4022250974))] := by
  decide

/-! ## Announce worker: the prune pass -/

theorem int_of_size_t_small (x : Nat) (h : x < 2147483648) : int_of_size_t x = (x : Int) := by
  unfold int_of_size_t
  split <;> omega

theorem purge_indices_succ (n c k : Nat) (hc : c < n) :
    purge_indices n c (k + 1) = c :: purge_indices n ((c + 1) % n) k := by
  simp only [purge_indices, List.range_succ_eq_map, List.map_cons, List.map_map,
    Nat.add_zero, Nat.mod_eq_of_lt hc]
  congr 1
  apply List.map_congr_left
  intro j _
  show (c + (j + 1)) % n = ((c + 1) % n + j) % n
  rw [Nat.add_mod ((c + 1) % n) j n, Nat.mod_mod, ← Nat.add_mod]
  congr 1
  omega

theorem purge_indices_length (n c k : Nat) : (purge_indices n c k).length = k := by
  simp [purge_indices]

theorem purge_indices_lt (n c k : Nat) (hn : 0 < n) : ∀ i ∈ purge_indices n c k, i < n := by
  intro i hi
  simp only [purge_indices, List.mem_map] at hi
  obtain ⟨j, _, hj⟩ := hi
  rw [← hj]
  exact Nat.mod_lt _ hn

theorem purge_indices_nodup (n c k : Nat) (hk : k ≤ n) : (purge_indices n c k).Nodup := by
  unfold purge_indices
  apply List.Nodup.map_on _ (List.nodup_range k)
  intro i hi j hj hij
  have hi2 : i < n := lt_of_lt_of_le (List.mem_range.1 hi) hk
  have hj2 : j < n := lt_of_lt_of_le (List.mem_range.1 hj) hk
  have hmod : i ≡ j [MOD n] := Nat.ModEq.add_left_cancel' c hij
  have h2 : i % n = j % n := hmod
  rwa [Nat.mod_eq_of_lt hi2, Nat.mod_eq_of_lt hj2] at h2

theorem purge_at_length {swarm rng : Type} (env : worker_env swarm rng) (now : Nat)
    (t : List (sha1_hash × swarm)) (i : Nat) : (purge_at env now t i).length = t.length := by
  simp [purge_at]

/-- The loop of the prune pass calls `purge_stale` at the positions the cursor
visits, one after the other, and leaves the cursor behind the last of them. -/
theorem purge_loop_eq {swarm rng : Type} (env : worker_env swarm rng)
    (k : Nat) (w : announce_thread swarm rng) (hc : w.next_to_purge < w.m_swarms.length) :
    (purge_loop env k w).m_swarms =
      (purge_indices w.m_swarms.length w.next_to_purge k).foldl (purge_at env w.now)
        w.m_swarms ∧
    (purge_loop env k w).next_to_purge = (w.next_to_purge + k) % w.m_swarms.length := by
  induction k generalizing w with
  | zero =>
    exact ⟨by simp [purge_loop, purge_indices], by simp [purge_loop, Nat.mod_eq_of_lt hc]⟩
  | succ k ih =>
    have hlen := purge_at_length env w.now w.m_swarms w.next_to_purge
    have hnext : (if w.next_to_purge + 1 =
          (purge_at env w.now w.m_swarms w.next_to_purge).length then 0
        else w.next_to_purge + 1) = (w.next_to_purge + 1) % w.m_swarms.length := by
      rw [hlen]
      split
      · next h => rw [h, Nat.mod_self]
      · next h => rw [Nat.mod_eq_of_lt (by omega)]
    have hc2 : (w.next_to_purge + 1) % w.m_swarms.length < w.m_swarms.length :=
      Nat.mod_lt _ (by omega)
    simp only [purge_loop]
    rw [hnext]
    have := ih
      { w with
        m_swarms := purge_at env w.now w.m_swarms w.next_to_purge
        next_to_purge := (w.next_to_purge + 1) % w.m_swarms.length }
      (by simp only [hlen]; exact hc2)
    simp only [hlen] at this
    rw [this.1, this.2, purge_indices_succ _ _ _ hc]
    refine ⟨rfl, ?_⟩
    rw [Nat.add_mod ((w.next_to_purge + 1) % w.m_swarms.length) k, Nat.mod_mod,
      ← Nat.add_mod]
    congr 1
    omega

/-- The table after `purge_stale` was called at pairwise distinct positions:
the swarms at these positions were purged once, the others are as before. -/
theorem foldl_purge_at_getElem? {swarm rng : Type} (env : worker_env swarm rng) (now : Nat)
    (idx : List Nat) (hnodup : idx.Nodup) (t : List (sha1_hash × swarm)) (j : Nat) :
    (idx.foldl (purge_at env now) t)[j]? =
      (fun e => if j ∈ idx then (e.1, env.purge_stale now e.2) else e) <$> t[j]? := by
  induction idx generalizing t with
  | nil => simp
  | cons i idx ih =>
    have hi : i ∉ idx := (List.nodup_cons.1 hnodup).1
    simp only [List.foldl_cons]
    rw [ih (List.nodup_cons.1 hnodup).2, purge_at, List.getElem?_modify]
    cases t[j]? with
    | none => rfl
    | some e =>
      by_cases hij : i = j
      · subst hij
        simp [hi]
      · have hji : ¬ j = i := fun h => hij h.symm
        simp [hij, hji]

theorem prune_due_eq {swarm rng : Type} (env : worker_env swarm rng)
    (w : announce_thread swarm rng) (hdue : w.now > w.next_prune)
    (hn : 0 < w.m_swarms.length) (hmax : w.m_swarms.length < 2147483648) :
    prune env w =
      purge_loop env (min 20 w.m_swarms.length)
        { w with next_prune := w.now + seconds 10, next_to_purge := purge_start w } := by
  have hnum : (min (int_of_size_t w.m_swarms.length) 20).toNat = min 20 w.m_swarms.length := by
    rw [int_of_size_t_small _ hmax]
    omega
  by_cases hend : w.next_to_purge = w.m_swarms.length
  · simp [prune, hdue, hn, hend, purge_start, hnum]
  · simp [prune, hdue, hn, hend, purge_start, hnum]

/-- C14: in a prune pass over a table of `n > 0` swarms (fewer than `2^31`, so
that `int(m_swarms.size())` is `n`; the cursor is a position of the table or
`end()`), `purge_stale(now)` is called once on each of the `min(20, n)` swarms
at the positions `c, c + 1, …` taken modulo `n`, where `c` is the cursor (the
first swarm for `end()`); these positions are pairwise distinct, every other
swarm is left as it was, and the cursor ends at position `c + min(20, n)`
modulo `n`.  With an empty table nothing is purged and the cursor stays. -/
theorem prune_pass {swarm rng : Type} (env : worker_env swarm rng)
    (w : announce_thread swarm rng) (hdue : w.now > w.next_prune)
    (hcursor : w.next_to_purge ≤ w.m_swarms.length)
    (hmax : w.m_swarms.length < 2147483648) :
    (0 < w.m_swarms.length →
      (purged_positions w).length = min 20 w.m_swarms.length ∧
      (purged_positions w).Nodup ∧
      (∀ i ∈ purged_positions w, i < w.m_swarms.length) ∧
      purged_positions w =
        (List.range (min 20 w.m_swarms.length)).map
          (fun j => (purge_start w + j) % w.m_swarms.length) ∧
      (∀ j, (prune env w).m_swarms[j]? =
        (fun e => if j ∈ purged_positions w then (e.1, env.purge_stale w.now e.2) else e) <$>
          w.m_swarms[j]?) ∧
      (prune env w).next_to_purge =
        (purge_start w + min 20 w.m_swarms.length) % w.m_swarms.length) ∧
    (w.m_swarms.length = 0 →
      (prune env w).m_swarms = w.m_swarms ∧
      (prune env w).next_to_purge = w.next_to_purge) := by
  constructor
  · intro hn
    have hstart : purge_start w < w.m_swarms.length := by
      unfold purge_start
      split <;> omega
    have hnodup : (purged_positions w).Nodup :=
      purge_indices_nodup _ _ _ (Nat.min_le_right 20 _)
    have hloop := purge_loop_eq env (min 20 w.m_swarms.length)
      { w with next_prune := w.now + seconds 10, next_to_purge := purge_start w } hstart
    refine ⟨purge_indices_length _ _ _, hnodup, purge_indices_lt _ _ _ hn, rfl, ?_, ?_⟩
    · intro j
      rw [prune_due_eq env w hdue hn hmax, hloop.1]
      exact foldl_purge_at_getElem? env w.now _ hnodup w.m_swarms j
    · rw [prune_due_eq env w hdue hn hmax, hloop.2]
  · intro hn
    have hn0 : ¬ 0 < w.m_swarms.length := by omega
    simp [prune, hdue, hn0]

/-- C14, at a table of 25 swarms with the cursor at position 23. -/
theorem prune_pass_witness :
    (0 < w_due.m_swarms.length →
      (purged_positions w_due).length = min 20 w_due.m_swarms.length ∧
      (purged_positions w_due).Nodup ∧
      (∀ i ∈ purged_positions w_due, i < w_due.m_swarms.length) ∧
      purged_positions w_due =
        (List.range (min 20 w_due.m_swarms.length)).map
          (fun j => (purge_start w_due + j) % w_due.m_swarms.length) ∧
      (∀ j, (prune wenv1 w_due).m_swarms[j]? =
        (fun e => if j ∈ purged_positions w_due then (e.1, wenv1.purge_stale w_due.now e.2)
          else e) <$> w_due.m_swarms[j]?) ∧
      (prune wenv1 w_due).next_to_purge =
        (purge_start w_due + min 20 w_due.m_swarms.length) % w_due.m_swarms.length) ∧
    (w_due.m_swarms.length = 0 →
      (prune wenv1 w_due).m_swarms = w_due.m_swarms ∧
      (prune wenv1 w_due).next_to_purge = w_due.next_to_purge) :=
  prune_pass wenv1 w_due (by decide) (by decide) (by decide)

/-- The pass of the example: the positions 23, 24, 0, …, 17 are purged (the
swarms there get the mark 100), the positions 18 to 22 are not, and the cursor
ends at 18. -/
theorem prune_pass_example :
    purged_positions w_due =
      [23, 24, 0, 1, 2, 3, 4, 5, 6, 7, 8, 9, 10, 11, 12, 13, 14, 15, 16, 17] ∧
    (prune wenv1 w_due).m_swarms.map Prod.snd =
      [100, 101, 102, 103, 104, 105, 106, 107, 108, 109, 110, 111, 112, 113, 114, 115,
        116, 117, 18, 19, 20, 21, 22, 123, 124] ∧
    (prune wenv1 w_due).next_to_purge = 18 := by
  decide

/-! ## Announce worker: when the prune pass runs -/

theorem handle_msg_cursor {swarm rng : Type} (env : worker_env swarm rng)
    (w : announce_thread swarm rng) (m : announce_msg) :
    (handle_msg env w m).next_prune = w.next_prune ∧
    (handle_msg env w m).next_to_purge = w.next_to_purge ∧
    (handle_msg env w m).now = w.now := by
  unfold handle_msg
  split
  · exact ⟨rfl, rfl, rfl⟩
  · split
    · exact ⟨rfl, rfl, rfl⟩
    · exact ⟨rfl, rfl, rfl⟩

theorem handle_batch_cursor {swarm rng : Type} (env : worker_env swarm rng)
    (v : List announce_msg) (w : announce_thread swarm rng) :
    (v.foldl (handle_msg env) w).next_prune = w.next_prune ∧
    (v.foldl (handle_msg env) w).next_to_purge = w.next_to_purge ∧
    (v.foldl (handle_msg env) w).now = w.now := by
  induction v generalizing w with
  | nil => exact ⟨rfl, rfl, rfl⟩
  | cons m v ih =>
    have h1 := handle_msg_cursor env w m
    have h2 := ih (handle_msg env w m)
    simp only [List.foldl_cons]
    exact ⟨h2.1.trans h1.1, h2.2.1.trans h1.2.1, h2.2.2.trans h1.2.2⟩

theorem handle_queue_cursor {swarm rng : Type} (env : worker_env swarm rng)
    (queue : List (List announce_msg)) (w : announce_thread swarm rng) :
    (handle_queue env w queue).next_prune = w.next_prune ∧
    (handle_queue env w queue).next_to_purge = w.next_to_purge ∧
    (handle_queue env w queue).now = w.now := by
  unfold handle_queue
  induction queue generalizing w with
  | nil => exact ⟨rfl, rfl, rfl⟩
  | cons v queue ih =>
    have h1 := handle_batch_cursor env v w
    have h2 := ih (v.foldl (handle_msg env) w)
    simp only [List.foldl_cons]
    exact ⟨h2.1.trans h1.1, h2.2.1.trans h1.2.1, h2.2.2.trans h1.2.2⟩

theorem work_cursor {swarm rng : Type} (env : worker_env swarm rng)
    (w : announce_thread swarm rng) (t : Nat) :
    (work env w t).next_prune = (prune env { w with now := t }).next_prune ∧
    (work env w t).next_to_purge = (prune env { w with now := t }).next_to_purge :=
  ⟨(handle_queue_cursor env _ _).1, (handle_queue_cursor env _ _).2.1⟩

theorem prune_skip {swarm rng : Type} (env : worker_env swarm rng)
    (w : announce_thread swarm rng) (h : w.now ≤ w.next_prune) : prune env w = w := by
  have hnot : ¬ w.now > w.next_prune := by omega
  simp [prune, hnot]

theorem prune_next_prune {swarm rng : Type} (env : worker_env swarm rng)
    (w : announce_thread swarm rng) (h : w.now > w.next_prune) :
    (prune env w).next_prune = w.now + seconds 10 := by
  simp only [prune, h, if_true]
  split_ifs
  · exact (purge_loop_out env _ _).2.2.2.2.2
  · rfl
  · exact (purge_loop_out env _ _).2.2.2.2.2
  · rfl

/-- C15 fails as stated: an iteration that reads the clock at exactly
`next_prune` (tick 5 here, so `now ≥ next_prune`) gets past the quit check and
skips the prune pass: `next_prune` is still 5, the cursor is still at 1 and
the three swarms are not purged; one tick later the pass runs. -/
theorem prune_at_deadline_skipped :
    (w_swarms 3 1).m_quit = false ∧ 5 ≥ (w_swarms 3 1).next_prune ∧
    (iteration wenv1 (w_swarms 3 1) 5).map
        (fun w1 => (w1.next_prune, w1.next_to_purge, w1.m_swarms.map Prod.snd)) =
      some (5, 1, [0, 1, 2]) ∧
    (iteration wenv1 (w_swarms 3 1) 6).map
        (fun w1 => (w1.next_prune, w1.next_to_purge, w1.m_swarms.map Prod.snd)) =
      some (6 + seconds 10, 1, [100, 101, 102]) := by
  decide

/-- C15, amended: in an iteration that gets past the quit check and reads the
clock `t`, the prune pass runs (the state is changed by it) exactly when
`t > next_prune`, and then `next_prune` becomes `t + 10 s`; when
`t ≤ next_prune` the pass leaves the state as it is, and `next_prune` and the
cursor are the same after the iteration. -/
theorem prune_cadence {swarm rng : Type} (env : worker_env swarm rng)
    (w : announce_thread swarm rng) (t : Nat) (hquit : w.m_quit = false) :
    iteration env w t = some (work env (take_queue w) t) ∧
    (prune env { take_queue w with now := t } ≠ { take_queue w with now := t } ↔
      t > w.next_prune) ∧
    (t > w.next_prune → (work env (take_queue w) t).next_prune = t + seconds 10) ∧
    (t ≤ w.next_prune →
      prune env { take_queue w with now := t } = { take_queue w with now := t } ∧
      (work env (take_queue w) t).next_prune = w.next_prune ∧
      (work env (take_queue w) t).next_to_purge = w.next_to_purge) := by
  have hc := work_cursor env (take_queue w) t
  refine ⟨by simp [iteration, hquit], ?_, ?_, ?_⟩
  · constructor
    · intro hne
      by_contra hle
      exact hne (prune_skip env _ (by show t ≤ w.next_prune; omega))
    · intro hgt heq
      have h1 := prune_next_prune env { take_queue w with now := t } hgt
      rw [heq] at h1
      have h2 : w.next_prune = t + seconds 10 := h1
      omega
  · intro hgt
    rw [hc.1]
    exact prune_next_prune env { take_queue w with now := t } hgt
  · intro hle
    have hskip := prune_skip env { take_queue w with now := t } hle
    refine ⟨hskip, ?_, ?_⟩
    · rw [hc.1, hskip]; rfl
    · rw [hc.2, hskip]; rfl

/-- C15 amended, at the worker of the counterexample. -/
theorem prune_cadence_witness :
    iteration wenv1 (w_swarms 3 1) 5 = some (work wenv1 (take_queue (w_swarms 3 1)) 5) ∧
    (prune wenv1 { take_queue (w_swarms 3 1) with now := 5 } ≠
        { take_queue (w_swarms 3 1) with now := 5 } ↔ 5 > (w_swarms 3 1).next_prune) ∧
    (5 > (w_swarms 3 1).next_prune →
      (work wenv1 (take_queue (w_swarms 3 1)) 5).next_prune = 5 + seconds 10) ∧
    (5 ≤ (w_swarms 3 1).next_prune →
      prune wenv1 { take_queue (w_swarms 3 1) with now := 5 } =
        { take_queue (w_swarms 3 1) with now := 5 } ∧
      (work wenv1 (take_queue (w_swarms 3 1)) 5).next_prune = (w_swarms 3 1).next_prune ∧
      (work wenv1 (take_queue (w_swarms 3 1)) 5).next_to_purge =
        (w_swarms 3 1).next_to_purge) :=
  prune_cadence wenv1 (w_swarms 3 1) 5 rfl

/-! ## Announce worker: the queue and its size -/

theorem queue_batches_nonempty {swarm rng : Type} (env : worker_env swarm rng)
    (w0 w : announce_thread swarm rng) (h0q : w0.m_queue = [])
    (hr : reachable env w0 w) : ∀ b ∈ w.m_queue, b ≠ [] := by
  induction hr with
  | start =>
    intro b hb
    rw [h0q] at hb
    exact absurd hb (List.not_mem_nil b)
  | step w w1 _ hstep ih =>
    cases hstep with
    | post m =>
      by_cases hm : m = []
      · have hpost : post_announces env w m = w := by simp [post_announces, hm]
        rw [hpost]
        exact ih
      · by_cases hfull : w.m_queue_size ≥ env.announce_queue_size
        · rw [post_announces_full env w m hm hfull]
          exact ih
        · rw [post_announces_room env w m hm (by omega)]
          intro b hb
          have hb2 : b ∈ w.m_queue ++ [m] := hb
          rcases List.mem_append.1 hb2 with h | h
          · exact ih b h
          · rw [List.mem_singleton.1 h]
            exact hm
    | take hquit hq =>
      intro b hb
      have hb2 : b ∈ w.queue := hb
      rw [hq] at hb2
      exact absurd hb2 (List.not_mem_nil b)
    | work t =>
      rw [(work_shared env w t).1]
      exact ih
    | quit => exact ih

theorem total_messages_pos (q : List (List announce_msg)) (hq : q ≠ [])
    (hne : ∀ b ∈ q, b ≠ []) : 0 < total_messages q := by
  cases q with
  | nil => exact absurd rfl hq
  | cons b q =>
    have hb : b ≠ [] := hne b (List.mem_cons_self _ _)
    have hlen : 0 < b.length := List.length_pos.2 hb
    simp only [total_messages, List.map_cons, List.sum_cons]
    omega

/-- C16: in every state a freshly constructed worker reaches by posts and
drains, `m_queue_size` is the sum of the sizes of the batches in the queue and
no batch in the queue is empty; so the queue is empty exactly when
`m_queue_size` is 0. -/
theorem queue_size_invariant {swarm rng : Type} (env : worker_env swarm rng)
    (g : rng) (t announces scrapes dropped : Nat) (w : announce_thread swarm rng)
    (hr : reachable env (announce_thread.init g t announces scrapes dropped) w) :
    w.m_queue_size = total_messages w.m_queue ∧
    (∀ b ∈ w.m_queue, b ≠ []) ∧
    (w.m_queue = [] ↔ w.m_queue_size = 0) := by
  have hsize := (queue_invariant env _ w rfl rfl hr).1
  have hne := queue_batches_nonempty env _ w rfl hr
  refine ⟨hsize, hne, ?_, ?_⟩
  · intro hq
    rw [hsize, hq]
    rfl
  · intro h0
    by_contra hq
    have hpos := total_messages_pos w.m_queue hq hne
    omega

/-- C16, at a fresh worker after two posts, a swap, a third post and the rest
of the iteration. -/
theorem queue_size_invariant_witness :
    (work wenv0 (post_announces wenv0 (take_queue (post_announces wenv0
        (post_announces wenv0 w_init [m_announce]) [m_scrape, m_scrape])) [m_scrape])
        7).m_queue_size =
      total_messages (work wenv0 (post_announces wenv0 (take_queue (post_announces wenv0
        (post_announces wenv0 w_init [m_announce]) [m_scrape, m_scrape])) [m_scrape])
        7).m_queue ∧
    (∀ b ∈ (work wenv0 (post_announces wenv0 (take_queue (post_announces wenv0
        (post_announces wenv0 w_init [m_announce]) [m_scrape, m_scrape])) [m_scrape])
        7).m_queue, b ≠ []) ∧
    ((work wenv0 (post_announces wenv0 (take_queue (post_announces wenv0
        (post_announces wenv0 w_init [m_announce]) [m_scrape, m_scrape])) [m_scrape])
        7).m_queue = [] ↔
      (work wenv0 (post_announces wenv0 (take_queue (post_announces wenv0
        (post_announces wenv0 w_init [m_announce]) [m_scrape, m_scrape])) [m_scrape])
        7).m_queue_size = 0) :=
  queue_size_invariant wenv0 0 0 0 0 0 _
    (reachable.step _ _
      (reachable.step _ _
        (reachable.step _ _
          (reachable.step _ _
            (reachable.step _ _ reachable.start (worker_step.post _ [m_announce]))
            (worker_step.post _ [m_scrape, m_scrape]))
          (worker_step.take _ rfl rfl))
        (worker_step.post _ [m_scrape]))
      (worker_step.work _ 7))

/-! ## Receive thread: the worker index -/

theorem scrape_selector_eq (env : recv_env) (h : sha1_hash)
    (hW : 0 < env.num_threads) (hmax : env.num_threads ≤ 2147483648) :
    size_t_of_int (int_of_size_t (h.val.headD 0 % env.num_threads)) =
      h.val.headD 0 % env.num_threads := by
  have hlt : h.val.headD 0 % env.num_threads < env.num_threads := Nat.mod_lt _ hW
  exact size_t_of_int_of_size_t _ (by omega)

/-- C17: with `W` workers, `1 ≤ W ≤ 2^31` (the index is kept in an `int`),
the index `incoming_packet` uses for an accepted announce is
`siphash_fun(info_hash) mod W`, the one it uses for an accepted scrape is the
first element of the info-hash `mod W`, and both are below `W`. -/
theorem thread_selector_in_bounds (env : recv_env) (st : recv_state)
    (hdr : udp_announce_message) (size : Int) (from_ : sockaddr_in) (fromlen : Nat)
    (hW : 1 ≤ env.num_threads) (hmax : env.num_threads ≤ 2147483648)
    (hverify : verify_connection_id env.siphash env.keys hdr.connection_id from_ = true) :
    (ntohl hdr.action = 1 → 98 ≤ size →
      ∃ (i : Nat) (m : announce_msg),
        (incoming_packet env st hdr size from_ fromlen).posted = st.posted ++ [(i, m)] ∧
        i = env.siphash_fun hdr.hash % env.num_threads ∧ i < env.num_threads) ∧
    (ntohl hdr.action = 2 → 36 ≤ size →
      ∃ (i : Nat) (m : announce_msg),
        (incoming_packet env st hdr size from_ fromlen).posted = st.posted ++ [(i, m)] ∧
        i = hdr.hash.val.headD 0 % env.num_threads ∧ i < env.num_threads) := by
  constructor
  · intro ha hsize
    rw [incoming_packet_announce_eq env st hdr size from_ fromlen ha hverify hsize,
      announce_selector_eq env hdr.hash hW hmax]
    exact ⟨_, _, rfl, rfl, Nat.mod_lt _ hW⟩
  · intro ha hsize
    rw [incoming_packet_scrape_eq env st hdr size from_ fromlen ha hverify hsize,
      scrape_selector_eq env hdr.hash hW hmax]
    exact ⟨_, _, rfl, rfl, Nat.mod_lt _ hW⟩

/-- C17, at a 36-byte scrape for the info-hash `01 01 … 01` with two workers. -/
theorem thread_selector_in_bounds_witness :
    (ntohl (hdr0 268 33554432 0).action = 1 → (98 : Int) ≤ 36 →
      ∃ (i : Nat) (m : announce_msg),
        (incoming_packet env0 st0 (hdr0 268 33554432 0) 36 from0 16).posted =
          st0.posted ++ [(i, m)] ∧
        i = env0.siphash_fun (hdr0 268 33554432 0).hash % env0.num_threads ∧
        i < env0.num_threads) ∧
    (ntohl (hdr0 268 33554432 0).action = 2 → (36 : Int) ≤ 36 →
      ∃ (i : Nat) (m : announce_msg),
        (incoming_packet env0 st0 (hdr0 268 33554432 0) 36 from0 16).posted =
          st0.posted ++ [(i, m)] ∧
        i = (hdr0 268 33554432 0).hash.val.headD 0 % env0.num_threads ∧
        i < env0.num_threads) :=
  thread_selector_in_bounds env0 st0 (hdr0 268 33554432 0) 36 from0 16
    (by decide) (by decide) (by decide)

/-! ## Receive loop -/

/-- Every call of `incoming_packet` in the loop over a batch gets the address
length of the first datagram of the batch. -/
theorem receive_batch_cons (env : recv_env) (st : recv_state) (p0 : incoming_packet_t)
    (ps : List incoming_packet_t) :
    receive_batch env st (p0 :: ps) =
      ps.foldl (fun st p => incoming_packet env st p.buffer p.buflen p.from_ p0.fromlen)
        (incoming_packet env st p0.buffer p0.buflen p0.from_ p0.fromlen) := rfl

/-- The address length given to every call is the one of the first datagram
of the batch: were the lengths of one batch to differ (16, 28 and 28 here),
the later datagrams would be handled with the first length. -/
theorem receive_batch_fromlen :
    (pkt_announce 28).fromlen = 28 ∧ (pkt_connect 28).fromlen = 28 ∧
    (receive_batch env0 st0 [pkt_connect 16, pkt_announce 28, pkt_connect 28]).posted.map
        (fun p => p.2.fromlen) = [16] ∧
    (receive_batch env0 st0 [pkt_connect 16, pkt_announce 28, pkt_connect 28]).send_buffer.map
        (fun p => p.tolen) = [some 16, some 16] := by
  decide

/-- The batch of the example: the two connects are answered to the sender
with the address length 16 and the announce is handed over with the sender and
the address length 16. -/
theorem receive_batch_example :
    (receive_batch env0 st0 [pkt_connect 16, pkt_announce 16, pkt_connect 16]).send_buffer.map
        (fun r => (r.to_, r.tolen)) = [(from0, some 16), (from0, some 16)] ∧
    (receive_batch env0 st0 [pkt_connect 16, pkt_announce 16, pkt_connect 16]).posted.map
        (fun m => (m.2.from_, m.2.fromlen)) = [(from0, 16)] := by
  decide

end Utrack
